import Mathlib

/-!
Shallow embedding of the bagizi-id maintenance scripts.

The repository consists of five standalone Python scripts that perform
regex-based text rewrites over a fixed set of files:

* `src/scripts/fix_inventory_calls.py`     - strips the second string argument
  from `getFoodCategoryId('X', 'Y')` call sites in a seed file.
* `src/scripts/update_menu_seed.py`        - inserts a helper block at an anchor
  line and adds a `foodCategoryId:` field to menu create blocks.
* `src/scripts/fix-auth-placement.py`      - relocates a misplaced auth-check
  block from a function parameter list into the function body.
* `src/scripts/fix-nextjs15-auth-pattern.py` - same relocation with a slightly
  different pattern and a manual-review skip outcome.
* `src/scripts/fix-client-component-auth.py` - strips auth imports, `async`
  markers and auth-check blocks from a hard-coded list of client components.

File contents are modelled as `List Char`.  Python's `re.sub` is modelled by a
left-to-right scan (`subFuel`/`subAll`) that at each position attempts a
deterministic matcher translated junction-by-junction from the script's regex
(almost every greedy run `[^c]+`, `\w+` or `\s*` is delimited by a following
literal that its character class excludes, so backtracking in `\s*\n .. \s*\n`
junctions amounts to requiring enough newlines inside a maximal whitespace
run, and for trailing `\s*\n` to cutting the run at its last newline; the one
exception is the `\s*\n\s*\n\s*([^}]+)\}` junction of
fix-nextjs15-auth-pattern.py, where `[^}]+` also matches whitespace and
backtracking lets group 3 capture whitespace-only text when `}` follows the
run directly — modelled exactly by `njGroup3`).  Python's `\s` and `\w` are
modelled by their
ASCII fragments; the repository's target files are ASCII.  Matches are
non-overlapping and replacement text is not rescanned, as in `re.sub`.
-/

set_option maxRecDepth 20000

abbrev Chars := List Char

/-- Character list of a string literal. -/
def strOf (s : String) : Chars := s.data

/-- ASCII fragment of Python's regex class `\s`. -/
def isPySpace (c : Char) : Bool :=
  c == ' ' || c == '\t' || c == '\n' || c == '\r' || c == '\x0b' || c == '\x0c'

/-- ASCII fragment of Python's regex class `\w`. -/
def isWordChar (c : Char) : Bool :=
  ('a' ≤ c && c ≤ 'z') || ('A' ≤ c && c ≤ 'Z') || ('0' ≤ c && c ≤ '9') || c == '_'

/-- Match a literal at the head of the input, returning the rest. -/
def expectLit : Chars → Chars → Option Chars
  | [], s => some s
  | _ :: _, [] => none
  | c :: l, d :: s => if c = d then expectLit l s else none

/-- Split off the maximal run of characters satisfying `p` (greedy run). -/
def runSplit (p : Char → Bool) : Chars → Chars × Chars
  | [] => ([], [])
  | c :: r =>
    if p c then ((runSplit p r).1.cons c, (runSplit p r).2) else ([], c :: r)

/-- Nonempty greedy run of characters satisfying `p` (regex `X+`). -/
def run1 (p : Char → Bool) (s : Chars) : Option (Chars × Chars) :=
  let (x, r) := runSplit p s
  if x.isEmpty then none else some (x, r)

/-- Nonempty greedy run followed by a literal (regex `X+LIT` with the literal
head excluded by the class, hence deterministic). -/
def run1Lit (p : Char → Bool) (lit : Chars) (s : Chars) : Option (Chars × Chars) :=
  let (x, r) := runSplit p s
  if x.isEmpty then none else (expectLit lit r).map (fun t => (x, t))

/-- Possibly-empty greedy run followed by a literal (regex `X*LIT`). -/
def run0Lit (p : Char → Bool) (lit : Chars) (s : Chars) : Option (Chars × Chars) :=
  let (x, r) := runSplit p s
  (expectLit lit r).map (fun t => (x, t))

/-- Whitespace junction `\s*(\n\s*)^k LIT`: a maximal whitespace run that must
contain at least `k` newlines, followed by a (non-whitespace-headed) literal. -/
def wsLit (k : Nat) (lit : Chars) (s : Chars) : Option (Chars × Chars) :=
  let (w, r) := runSplit isPySpace s
  if k ≤ w.count '\n' then (expectLit lit r).map (fun t => (w, t)) else none

/-- Whitespace junction requiring a nonempty run (regex `\s+LIT`). -/
def ws1Lit (lit : Chars) (s : Chars) : Option (Chars × Chars) :=
  let (w, r) := runSplit isPySpace s
  if w.isEmpty then none else (expectLit lit r).map (fun t => (w, t))

/-- Maximal whitespace run containing at least `k` newlines (no literal). -/
def wsNl (k : Nat) (s : Chars) : Option (Chars × Chars) :=
  let (w, r) := runSplit isPySpace s
  if k ≤ w.count '\n' then some (w, r) else none

/-- Trailing junction `\s*\n` (`k = 1`) or `\s*\n\s*\n` (`k = 2`): the match
ends at the last newline of the maximal whitespace run, which must contain at
least `k` newlines; whitespace after that newline is left in the input. -/
def wsLastNl (k : Nat) (s : Chars) : Option Chars :=
  let (w, r) := runSplit isPySpace s
  if k ≤ w.count '\n' then
    some ((w.reverse.takeWhile (fun c => !(c == '\n'))).reverse ++ r)
  else none

/-- One character of the regex class `['\"]`. -/
def quoteOne (s : Chars) : Option Chars :=
  match s with
  | [] => none
  | c :: t => if c == '\x27' || c == '"' then some t else none

/-- Nonempty whitespace run followed by a quote character (regex `\s+['\"]`). -/
def ws1Quote (s : Chars) : Option Chars :=
  let (w, r) := runSplit isPySpace s
  if w.isEmpty then none else quoteOne r

/-- Python's `needle in haystack` substring test. -/
def containsSub (n : Chars) : Chars → Bool
  | [] => n.isEmpty
  | c :: t => n.isPrefixOf (c :: t) || containsSub n t

/-- Fuel-bounded core of `countSub`; with fuel at least the haystack length
and a nonempty needle this scans left to right counting non-overlapping
occurrences. -/
def countSubFuel (n : Chars) : Nat → Chars → Nat
  | 0, _ => 0
  | fuel + 1, h =>
    if n.isPrefixOf h then 1 + countSubFuel n fuel (h.drop n.length)
    else
      match h with
      | [] => 0
      | _ :: t => countSubFuel n fuel t

/-- Python's `str.count`: non-overlapping occurrences, scanning left to right
(for the empty needle Python returns `len + 1`). -/
def countSub (n : Chars) (h : Chars) : Nat :=
  if n.isEmpty then h.length + 1 else countSubFuel n h.length h

/-- Fuel-bounded left-to-right scan-and-replace: at each position try the
matcher; on a match emit its replacement and continue after the consumed text,
otherwise copy one character.  With fuel at least the input length and a
matcher that always consumes at least one character this is exactly Python's
`re.sub` for the deterministic matchers used here. -/
def subFuel (tryM : Chars → Option (Chars × Chars)) : Nat → Chars → Chars
  | 0, s => s
  | n + 1, s =>
    match tryM s with
    | some (r, t) => r ++ subFuel tryM n t
    | none =>
      match s with
      | [] => []
      | c :: s' => c :: subFuel tryM n s'

/-- `re.sub` over the whole input. -/
def subAll (tryM : Chars → Option (Chars × Chars)) (s : Chars) : Chars :=
  subFuel tryM s.length s

/-- `re.search` as a Boolean: does the matcher succeed at some position? -/
def reSearch (tryM : Chars → Option (Chars × Chars)) : Chars → Bool
  | [] => (tryM []).isSome
  | c :: t => (tryM (c :: t)).isSome || reSearch tryM t

/-- Python's `str.strip()` (ASCII whitespace fragment). -/
def pyStrip (s : Chars) : Chars :=
  ((s.dropWhile isPySpace).reverse.dropWhile isPySpace).reverse

/-- `str.replace old new` (all non-overlapping occurrences) as a matcher. -/
def replaceLitTry (old new s : Chars) : Option (Chars × Chars) :=
  if old ≠ [] && old.isPrefixOf s then some (new, s.drop old.length) else none

/-- Python's `str.replace` (replace all occurrences). -/
def replaceAll (old new : Chars) (s : Chars) : Chars :=
  subAll (replaceLitTry old new) s

/-! ## fix_inventory_calls.py

```
pattern = r"getFoodCategoryId\('([^']+)',\s*'[^']+'\)"
replacement = r"getFoodCategoryId('\1')"
new_content = re.sub(pattern, replacement, content)
changes = content.count("getFoodCategoryId(") - new_content.count(", '")
```
-/

/-- Matcher for `getFoodCategoryId\('([^']+)',\s*'[^']+'\)` with replacement
`getFoodCategoryId('\1')`. -/
def invTry (s : Chars) : Option (Chars × Chars) :=
  match expectLit (strOf "getFoodCategoryId(\x27") s with
  | none => none
  | some s1 =>
  match run1Lit (fun c => c != '\x27') (strOf "\x27,") s1 with
  | none => none
  | some (x, s2) =>
  match wsLit 0 (strOf "\x27") s2 with
  | none => none
  | some (_, s3) =>
  match run1Lit (fun c => c != '\x27') (strOf "\x27)") s3 with
  | none => none
  | some (_, s4) =>
    some (strOf "getFoodCategoryId(\x27" ++ x ++ strOf "\x27)", s4)

/-- The `re.sub` of fix_inventory_calls.py. -/
def invSub (c : Chars) : Chars := subAll invTry c

/-- The reported change count of fix_inventory_calls.py (line 25):
`content.count("getFoodCategoryId(") - new_content.count(", '")`. -/
def invChanges (c : Chars) : Int :=
  (countSub (strOf "getFoodCategoryId(") c : Int) -
    (countSub (strOf ", \x27") (invSub c) : Int)

/-- A two-string-argument call site `getFoodCategoryId('X',W'Y')`. -/
def invCall2 (x w y : Chars) : Chars :=
  strOf "getFoodCategoryId(\x27" ++ x ++ strOf "\x27," ++ w ++ strOf "\x27" ++
    y ++ strOf "\x27)"

/-- The corresponding one-argument call `getFoodCategoryId('X')`. -/
def invCall1 (x : Chars) : Chars :=
  strOf "getFoodCategoryId(\x27" ++ x ++ strOf "\x27)"

/-! ## update_menu_seed.py -/

/-- The anchor line replaced by the helper block (line 34). -/
def menuAnchor : Chars :=
  strOf "  const schoolLunchProgram = programs.find(p => p.programCode === \x27PWK-PMAS-2025\x27)!"

/-- The helper block `fetch_code` (lines 16-30); note that its last line is the
anchor line itself. -/
def menuFetchCode : Chars :=
  strOf "  // Fetch all food categories for mapping\n  console.log(\x27  → Fetching food categories...\x27)\n  const foodCategories = await prisma.foodCategory.findMany(\x7b\n    select: \x7b id: true, categoryCode: true, categoryName: true \x7d\n  \x7d)\n  const categoryMap = new Map(foodCategories.map(c => [c.categoryCode, c.id]))\n  console.log(\x60  ✓ Loaded $\x7bfoodCategories.length\x7d food categories\x60)\n  \n  // Helper to get foodCategoryId\n  const getFoodCategoryId = (menuName: string, description: string): string | undefined => \x7b\n    const code = getMenuCategoryCode(menuName, description)\n    return code ? categoryMap.get(code) : undefined\n  \x7d\n\n  const schoolLunchProgram = programs.find(p => p.programCode === \x27PWK-PMAS-2025\x27)!"

/-- Matcher for `(menuName: '([^']+)',\s+description: '([^']+)',\s+mealType:)`
with the replacement template of lines 42-47. -/
def menuTry (s : Chars) : Option (Chars × Chars) :=
  match expectLit (strOf "menuName: \x27") s with
  | none => none
  | some s1 =>
  match run1Lit (fun c => c != '\x27') (strOf "\x27,") s1 with
  | none => none
  | some (x, s2) =>
  match ws1Lit (strOf "description: \x27") s2 with
  | none => none
  | some (_, s3) =>
  match run1Lit (fun c => c != '\x27') (strOf "\x27,") s3 with
  | none => none
  | some (y, s4) =>
  match ws1Lit (strOf "mealType:") s4 with
  | none => none
  | some (_, s5) =>
    some (strOf "menuName: \x27" ++ x ++
      strOf "\x27,\n        description: \x27" ++ y ++
      strOf "\x27,\n        foodCategoryId: getFoodCategoryId(\x27" ++ x ++
      strOf "\x27, \x27" ++ y ++ strOf "\x27),\n        mealType:", s5)

/-- The full content transformation of update_menu_seed.py: anchor replacement
(step 1) followed by the menu-field `re.sub` (step 2). -/
def menuTransform (c : Chars) : Chars :=
  subAll menuTry (replaceAll menuAnchor menuFetchCode c)

/-! ## fix-auth-placement.py -/

/-- The marker substring checked by both relocation scripts. -/
def authMarker : Chars := strOf "// Authentication check"

/-- Matcher for the strict pattern of `fix_auth_placement` (line 43):
`(async function \w+)\s*\(\s*\{\s*\n\s*// Authentication check\s*\n\s*const
session = await auth\(\)\s*\n\s*const sppgId = session\?\.user\?\.sppgId
\s*\n\s*\n\s*if \(!sppgId\) \{\s*\n\s*redirect\([^\)]+\)\s*\n\s*\}\s*\n\s*\n
\s*(params[^\}]*\})\s*:\s*(\{[^\}]+\})\s*\)\s*\{`
returning the rebuilt replacement of lines 45-61 (group 2 is `.strip()`ped into
the parameter list and the redirect argument is the hard-coded
`'/access-denied?reason=no-sppg'`). -/
def apTry (s : Chars) : Option (Chars × Chars) :=
  match expectLit (strOf "async function ") s with
  | none => none
  | some s1 =>
  match run1 isWordChar s1 with
  | none => none
  | some (fname, s2) =>
  match wsLit 0 (strOf "(") s2 with
  | none => none
  | some (_, s3) =>
  match wsLit 0 (strOf "\x7b") s3 with
  | none => none
  | some (_, s4) =>
  match wsLit 1 (strOf "// Authentication check") s4 with
  | none => none
  | some (_, s5) =>
  match wsLit 1 (strOf "const session = await auth()") s5 with
  | none => none
  | some (_, s6) =>
  match wsLit 1 (strOf "const sppgId = session?.user?.sppgId") s6 with
  | none => none
  | some (_, s7) =>
  match wsLit 2 (strOf "if (!sppgId) \x7b") s7 with
  | none => none
  | some (_, s8) =>
  match wsLit 1 (strOf "redirect(") s8 with
  | none => none
  | some (_, s9) =>
  match run1Lit (fun c => c != ')') (strOf ")") s9 with
  | none => none
  | some (_, s10) =>
  match wsLit 1 (strOf "\x7d") s10 with
  | none => none
  | some (_, s11) =>
  match wsLit 2 (strOf "params") s11 with
  | none => none
  | some (_, s12) =>
  match run0Lit (fun c => c != '\x7d') (strOf "\x7d") s12 with
  | none => none
  | some (ptail, s13) =>
  match wsLit 0 (strOf ":") s13 with
  | none => none
  | some (_, s14) =>
  match wsLit 0 (strOf "\x7b") s14 with
  | none => none
  | some (_, s15) =>
  match run1Lit (fun c => c != '\x7d') (strOf "\x7d") s15 with
  | none => none
  | some (tyInner, s16) =>
  match wsLit 0 (strOf ")") s16 with
  | none => none
  | some (_, s17) =>
  match wsLit 0 (strOf "\x7b") s17 with
  | none => none
  | some (_, s18) =>
    some (strOf "async function " ++ fname ++ strOf "(\x7b\n  " ++
      pyStrip (strOf "params" ++ ptail ++ strOf "\x7d") ++
      strOf "\n\x7d: " ++ (strOf "\x7b" ++ tyInner ++ strOf "\x7d") ++
      strOf ") \x7b\n  // Authentication check\n  const session = await auth()\n  const sppgId = session?.user?.sppgId\n\n  if (!sppgId) \x7b\n    redirect(\x27/access-denied?reason=no-sppg\x27)\n  \x7d\n", s18)

/-- The `re.sub` of `fix_auth_placement`. -/
def apSub (c : Chars) : Chars := subAll apTry c

/-- `fix_auth_placement` (lines 37-65): the substituted content, or `None`
when the substitution changed nothing. -/
def fix_auth_placement (c : Chars) : Option Chars :=
  if apSub c = c then none else some (apSub c)

/-- Matcher for the coarse wrong-placement check of fix-auth-placement.py
(line 78): `async function \w+\s*\(\s*\{\s*\n\s*// Authentication check`. -/
def apWrongTry (s : Chars) : Option (Chars × Chars) :=
  match expectLit (strOf "async function ") s with
  | none => none
  | some s1 =>
  match run1 isWordChar s1 with
  | none => none
  | some (_, s2) =>
  match wsLit 0 (strOf "(") s2 with
  | none => none
  | some (_, s3) =>
  match wsLit 0 (strOf "\x7b") s3 with
  | none => none
  | some (_, s4) =>
  match wsLit 1 (strOf "// Authentication check") s4 with
  | none => none
  | some (_, s5) => some ([], s5)

/-- Per-file outcome, as in the scripts' result dictionaries. -/
inductive Outcome where
  | success : Outcome
  | skip : Chars → Outcome
  | error : Chars → Outcome
deriving DecidableEq

/-- `process_file` of fix-auth-placement.py (lines 67-96), exception-free part:
returns the outcome together with the on-disk content after the call. -/
def process_file_ap (c : Chars) : Outcome × Chars :=
  if ¬ containsSub authMarker c then (Outcome.skip (strOf "No auth check"), c)
  else if ¬ reSearch apWrongTry c then
    (Outcome.skip (strOf "Auth check already correct"), c)
  else
    match fix_auth_placement c with
    | none => (Outcome.skip (strOf "No changes needed"), c)
    | some f => (Outcome.success, f)

/-! ## fix-nextjs15-auth-pattern.py -/

/-- Group 3 junction `\s*\n\s*\n\s*([^}]+)\}` of the strict pattern of
fix-nextjs15-auth-pattern.py, with Python's backtracking.  The class `[^}]+`
includes whitespace, so after the maximal whitespace run `w`:
* if a non-`}` character follows the run, the greedy engine leaves the whole
  run to the `\s*` pieces (two newlines required anywhere in the run) and
  group 3 is the following maximal non-`}` run, closed by `}`;
* if `}` follows the run directly, the engine backtracks the last `\s*` one
  character so that group 3 captures the run's final whitespace character;
  this needs two newlines strictly before that character (in `w.dropLast`).
Returns the captured group and the remainder after the closing `}`. -/
def njGroup3 (s : Chars) : Option (Chars × Chars) :=
  let (w, r) := runSplit isPySpace s
  match r with
  | [] => none
  | c :: r' =>
    if c = '\x7d' then
      if 2 ≤ w.dropLast.count '\n' then
        match w.reverse with
        | [] => none
        | d :: _ => some ([d], r')
      else none
    else
      if 2 ≤ w.count '\n' then
        run1Lit (fun c2 => c2 != '\x7d') (strOf "\x7d") (c :: r')
      else none

/-- Matcher for the strict pattern of `fix_auth_in_params` (line 46):
`(async\s+function\s+\w+)\s*\(\s*\{\s*\n(\s*)// Authentication check\s*\n\s*
const session = await auth\(\)\s*\n\s*const sppgId = session\?\.user\?\.sppgId
\s*\n\s*\n\s*if \(!sppgId\) \{\s*\n\s*redirect\([^\)]+\)\s*\n\s*\}\s*\n\s*\n
\s*([^}]+)\}\s*:\s*(\{[^}]+\})\s*\)\s*\{`
with the replacement of lines 48-66 (group 1 keeps its original whitespace;
group 3, captured by `njGroup3` including Python's backtracked whitespace-only
case, is `.strip()`ped; the redirect argument is again the hard-coded
`'/access-denied?reason=no-sppg'`). -/
def njTry (s : Chars) : Option (Chars × Chars) :=
  match expectLit (strOf "async") s with
  | none => none
  | some s1 =>
  match ws1Lit (strOf "function") s1 with
  | none => none
  | some (w1, s2) =>
  match ws1Lit [] s2 with
  | none => none
  | some (w2, s3) =>
  match run1 isWordChar s3 with
  | none => none
  | some (fname, s4) =>
  match wsLit 0 (strOf "(") s4 with
  | none => none
  | some (_, s5) =>
  match wsLit 0 (strOf "\x7b") s5 with
  | none => none
  | some (_, s6) =>
  match wsLit 1 (strOf "// Authentication check") s6 with
  | none => none
  | some (_, s7) =>
  match wsLit 1 (strOf "const session = await auth()") s7 with
  | none => none
  | some (_, s8) =>
  match wsLit 1 (strOf "const sppgId = session?.user?.sppgId") s8 with
  | none => none
  | some (_, s9) =>
  match wsLit 2 (strOf "if (!sppgId) \x7b") s9 with
  | none => none
  | some (_, s10) =>
  match wsLit 1 (strOf "redirect(") s10 with
  | none => none
  | some (_, s11) =>
  match run1Lit (fun c => c != ')') (strOf ")") s11 with
  | none => none
  | some (_, s12) =>
  match wsLit 1 (strOf "\x7d") s12 with
  | none => none
  | some (_, s13) =>
  match njGroup3 s13 with
  | none => none
  | some (g3, s15) =>
  match wsLit 0 (strOf ":") s15 with
  | none => none
  | some (_, s16) =>
  match wsLit 0 (strOf "\x7b") s16 with
  | none => none
  | some (_, s17) =>
  match run1Lit (fun c => c != '\x7d') (strOf "\x7d") s17 with
  | none => none
  | some (tyInner, s18) =>
  match wsLit 0 (strOf ")") s18 with
  | none => none
  | some (_, s19) =>
  match wsLit 0 (strOf "\x7b") s19 with
  | none => none
  | some (_, s20) =>
    some ((strOf "async" ++ w1 ++ strOf "function" ++ w2 ++ fname) ++
      strOf "(\x7b\n  " ++ pyStrip g3 ++ strOf "\n\x7d: " ++
      (strOf "\x7b" ++ tyInner ++ strOf "\x7d") ++
      strOf ") \x7b\n  // Authentication check\n  const session = await auth()\n  const sppgId = session?.user?.sppgId\n\n  if (!sppgId) \x7b\n    redirect(\x27/access-denied?reason=no-sppg\x27)\n  \x7d\n\n", s20)

/-- The `re.sub` of `fix_auth_in_params`. -/
def njSub (c : Chars) : Chars := subAll njTry c

/-- `fix_auth_in_params` (lines 24-70): the substituted content, or `None`
when the substitution changed nothing. -/
def fix_auth_in_params (c : Chars) : Option Chars :=
  if njSub c = c then none else some (njSub c)

/-- Matcher for the coarse wrong-placement check of fix-nextjs15-auth-pattern.py
(line 83): `async\s+function\s+\w+\s*\(\s*\{\s*\n\s*// Authentication check`. -/
def njWrongTry (s : Chars) : Option (Chars × Chars) :=
  match expectLit (strOf "async") s with
  | none => none
  | some s1 =>
  match ws1Lit (strOf "function") s1 with
  | none => none
  | some (_, s2) =>
  match ws1Lit [] s2 with
  | none => none
  | some (_, s3) =>
  match run1 isWordChar s3 with
  | none => none
  | some (_, s4) =>
  match wsLit 0 (strOf "(") s4 with
  | none => none
  | some (_, s5) =>
  match wsLit 0 (strOf "\x7b") s5 with
  | none => none
  | some (_, s6) =>
  match wsLit 1 (strOf "// Authentication check") s6 with
  | none => none
  | some (_, s7) => some ([], s7)

/-- `process_file` of fix-nextjs15-auth-pattern.py (lines 72-104),
exception-free part: outcome plus on-disk content after the call. -/
def process_file_nj (c : Chars) : Outcome × Chars :=
  if ¬ containsSub authMarker c then (Outcome.skip (strOf "No auth check"), c)
  else if ¬ reSearch njWrongTry c then
    (Outcome.skip (strOf "Auth already correct"), c)
  else
    match fix_auth_in_params c with
    | none => (Outcome.skip (strOf "Pattern not matched"), c)
    | some f => (Outcome.success, f)

/-! ## fix-client-component-auth.py -/

/-- Matcher for the auth-import strip (lines 31-35):
`import\s+\{\s*auth\s*\}\s+from\s+['\"]@/lib/auth['\"]\s*\n` replaced by `''`. -/
def impAuthTry (s : Chars) : Option (Chars × Chars) :=
  match expectLit (strOf "import") s with
  | none => none
  | some s1 =>
  match ws1Lit (strOf "\x7b") s1 with
  | none => none
  | some (_, s2) =>
  match wsLit 0 (strOf "auth") s2 with
  | none => none
  | some (_, s3) =>
  match wsLit 0 (strOf "\x7d") s3 with
  | none => none
  | some (_, s4) =>
  match ws1Lit (strOf "from") s4 with
  | none => none
  | some (_, s5) =>
  match ws1Quote s5 with
  | none => none
  | some s6 =>
  match expectLit (strOf "@/lib/auth") s6 with
  | none => none
  | some s7 =>
  match quoteOne s7 with
  | none => none
  | some s8 =>
  match wsLastNl 1 s8 with
  | none => none
  | some s9 => some ([], s9)

/-- Matcher for the redirect-import strip (lines 36-40):
`import\s+\{\s*redirect\s*\}\s+from\s+['\"]next/navigation['\"]\s*\n`. -/
def impRedirTry (s : Chars) : Option (Chars × Chars) :=
  match expectLit (strOf "import") s with
  | none => none
  | some s1 =>
  match ws1Lit (strOf "\x7b") s1 with
  | none => none
  | some (_, s2) =>
  match wsLit 0 (strOf "redirect") s2 with
  | none => none
  | some (_, s3) =>
  match wsLit 0 (strOf "\x7d") s3 with
  | none => none
  | some (_, s4) =>
  match ws1Lit (strOf "from") s4 with
  | none => none
  | some (_, s5) =>
  match ws1Quote s5 with
  | none => none
  | some s6 =>
  match expectLit (strOf "next/navigation") s6 with
  | none => none
  | some s7 =>
  match quoteOne s7 with
  | none => none
  | some s8 =>
  match wsLastNl 1 s8 with
  | none => none
  | some s9 => some ([], s9)

/-- Matcher for the async strip (lines 43-47):
`async function (\w+)\(` replaced by `function \1(`. -/
def asyncTry (s : Chars) : Option (Chars × Chars) :=
  match expectLit (strOf "async function ") s with
  | none => none
  | some s1 =>
  match run1Lit isWordChar (strOf "(") s1 with
  | none => none
  | some (name, s2) => some (strOf "function " ++ name ++ strOf "(", s2)

/-- Matcher for the auth-block strip (lines 49-52):
`\s*// Authentication check\s*\n\s*const session = await auth\(\)\s*\n\s*const
sppgId = session\?\.user\?\.sppgId\s*\n\s*\n\s*if \(!sppgId\) \{\s*\n\s*
redirect\([^\)]+\)\s*\n\s*\}\s*\n\s*\n` replaced by `'\n'`. -/
def authBlockTry (s : Chars) : Option (Chars × Chars) :=
  match wsLit 0 (strOf "// Authentication check") s with
  | none => none
  | some (_, s1) =>
  match wsLit 1 (strOf "const session = await auth()") s1 with
  | none => none
  | some (_, s2) =>
  match wsLit 1 (strOf "const sppgId = session?.user?.sppgId") s2 with
  | none => none
  | some (_, s3) =>
  match wsLit 2 (strOf "if (!sppgId) \x7b") s3 with
  | none => none
  | some (_, s4) =>
  match wsLit 1 (strOf "redirect(") s4 with
  | none => none
  | some (_, s5) =>
  match run1Lit (fun c => c != ')') (strOf ")") s5 with
  | none => none
  | some (_, s6) =>
  match wsLit 1 (strOf "\x7d") s6 with
  | none => none
  | some (_, s7) =>
  match wsLastNl 2 s7 with
  | none => none
  | some s8 => some (strOf "\n", s8)

/-- The auth-import `re.sub` of fix-client-component-auth.py. -/
def impAuthSub (c : Chars) : Chars := subAll impAuthTry c

/-- The redirect-import `re.sub` of fix-client-component-auth.py. -/
def impRedirSub (c : Chars) : Chars := subAll impRedirTry c

/-- The async-removal `re.sub` of fix-client-component-auth.py. -/
def asyncSub (c : Chars) : Chars := subAll asyncTry c

/-- The auth-block-removal `re.sub` of fix-client-component-auth.py. -/
def authBlockSub (c : Chars) : Chars := subAll authBlockTry c

/-- `fix_client_component_auth` (lines 26-54): the four substitutions applied
in sequence. -/
def fix_client_component_auth (c : Chars) : Chars :=
  authBlockSub (asyncSub (impRedirSub (impAuthSub c)))

/-- The canonical auth-import line stripped by the client script. -/
def impAuthLine : Chars := strOf "import \x7b auth \x7d from \x27@/lib/auth\x27\n"

/-- The canonical redirect-import line stripped by the client script. -/
def impRedirLine : Chars := strOf "import \x7b redirect \x7d from \x27next/navigation\x27\n"

/-- Per-file step of the client script's `main` loop (lines 66-77) for an
existing file: outcome, resulting on-disk content, and the contribution to
`fixed_count`. -/
def client_step (c : Chars) : Outcome × Chars × Nat :=
  let f := fix_client_component_auth c
  if f ≠ c then (Outcome.success, f, 1) else (Outcome.skip (strOf "No changes needed"), c, 0)

/-- `fixed_count` over a batch of (existing) file contents. -/
def client_fixed_count (l : List Chars) : Nat :=
  (l.map (fun c => (client_step c).2.2)).sum

/-! ## File-system and batch models

The relocation scripts wrap each file in `try/except` (fix-auth-placement.py
lines 69-96), so a read or write failure becomes a per-file error outcome.  The
client script has no `try/except`: only a missing path is pre-checked (lines
62-64); an exception during read or write propagates and aborts the loop.  The
seed scripts read one fixed file, write a backup of the freshly read content
and then overwrite the file, unconditionally. -/

/-- Access behaviour of one target file: the outcome of reading it and, if a
write is attempted, the error it raises (`none` = write succeeds). -/
structure FileAccess where
  readRes : Except Chars Chars
  writeFail : Option Chars

/-- One iteration of fix-auth-placement.py's loop: `process_file` with its
`try/except` (lines 67-96) mapping any read/write exception to an error
outcome carrying the exception's message. -/
def ap_run_one (fa : FileAccess) : Outcome :=
  match fa.readRes with
  | Except.error m => Outcome.error m
  | Except.ok c =>
    match process_file_ap c with
    | (Outcome.success, _) =>
      match fa.writeFail with
      | some m => Outcome.error m
      | none => Outcome.success
    | (o, _) => o

/-- The batch loop of fix-auth-placement.py (lines 114-120): every file is
processed; a per-file error does not affect the others. -/
def ap_run_batch (fs : List FileAccess) : List Outcome := fs.map ap_run_one

/-- One iteration of fix-nextjs15-auth-pattern.py's loop: `process_file` with
its `try/except` (lines 72-104) mapping any read/write exception to an error
outcome carrying the exception's message. -/
def nj_run_one (fa : FileAccess) : Outcome :=
  match fa.readRes with
  | Except.error m => Outcome.error m
  | Except.ok c =>
    match process_file_nj c with
    | (Outcome.success, _) =>
      match fa.writeFail with
      | some m => Outcome.error m
      | none => Outcome.success
    | (o, _) => o

/-- The batch loop of fix-nextjs15-auth-pattern.py (lines 123-128): every file
is processed; a per-file error does not affect the others. -/
def nj_run_batch (fs : List FileAccess) : List Outcome := fs.map nj_run_one

/-- Access behaviour of one file in the client script's hard-coded list. -/
structure CFileAccess where
  pathExists : Bool
  readRes : Except Chars Chars
  writeFail : Option Chars

/-- One iteration of fix-client-component-auth.py's `main` loop (lines 60-77):
a missing path is skipped, but an exception during read or write is uncaught
(`Except.error` aborts the computation). -/
def client_run_one (fa : CFileAccess) : Except Chars Outcome :=
  if fa.pathExists = false then Except.ok (Outcome.skip (strOf "Not found"))
  else
    match fa.readRes with
    | Except.error m => Except.error m
    | Except.ok c =>
      if fix_client_component_auth c ≠ c then
        match fa.writeFail with
        | some m => Except.error m
        | none => Except.ok Outcome.success
      else Except.ok (Outcome.skip (strOf "No changes needed"))

/-- The client script's batch loop: an uncaught exception halts the batch,
leaving the remaining files unprocessed. -/
def client_run_batch : List CFileAccess → Except Chars (List Outcome)
  | [] => Except.ok []
  | fa :: rest =>
    match client_run_one fa with
    | Except.error m => Except.error m
    | Except.ok o => (client_run_batch rest).map (fun os => o :: os)

/-- On-disk state of a seed script's target file and its backup. -/
structure SeedState where
  file : Chars
  backup : Option Chars
deriving DecidableEq

/-- One invocation of fix_inventory_calls.py (lines 7-29): read the file,
unconditionally write the backup from the freshly read content, substitute,
unconditionally write the file. -/
def run_fix_inventory_calls (st : SeedState) : SeedState :=
  { file := invSub st.file, backup := some st.file }

/-- One invocation of update_menu_seed.py (lines 7-56): read, unconditionally
back up, apply both steps, unconditionally write. -/
def run_update_menu_seed (st : SeedState) : SeedState :=
  { file := menuTransform st.file, backup := some st.file }

/-- The canonical malformed page shape handled by `fix_auth_placement` (the
script docstring's "Pattern to fix", lines 8-12): the auth-check block, with
redirect argument `rarg`, sits inside the parameter list before the
destructured parameter (`params` ++ `ptail` ++ `}`) and its type annotation
(`{` ++ `ty` ++ `}`), laid out with the indentation produced by the buggy
injector. -/
def apMalformed (fname rarg ptail ty : Chars) : Chars :=
  strOf "async function " ++ fname ++
    strOf "(\x7b\n  // Authentication check\n  const session = await auth()\n  const sppgId = session?.user?.sppgId\n\n  if (!sppgId) \x7b\n    redirect(" ++
    rarg ++ strOf ")\n  \x7d\n\n  params" ++ ptail ++ strOf "\x7d: \x7b" ++ ty ++
    strOf "\x7d) \x7b"

/-- The output `fix_auth_placement` produces for `apMalformed`: the parameter
list is rebuilt from the captured groups -- keeping the closing brace captured
inside group 2, so the brace is doubled -- the auth block becomes the first
statements of the body, and the redirect argument is replaced by the
hard-coded `'/access-denied?reason=no-sppg'`. -/
def apFixedForm (fname ptail ty : Chars) : Chars :=
  strOf "async function " ++ fname ++ strOf "(\x7b\n  params" ++ ptail ++
    strOf "\x7d\n\x7d: \x7b" ++ ty ++
    strOf "\x7d) \x7b\n  // Authentication check\n  const session = await auth()\n  const sppgId = session?.user?.sppgId\n\n  if (!sppgId) \x7b\n    redirect(\x27/access-denied?reason=no-sppg\x27)\n  \x7d\n"

/-- True when the input is empty or starts with a non-whitespace character
(used to keep a trailing `\s*\n` junction from extending into appended
text). -/
def headNonSpace : Chars → Bool
  | [] => true
  | c :: _ => !(isPySpace c)

/-- The matcher consumes at least one character on every match. -/
def ConsumesStrict (tryM : Chars → Option (Chars × Chars)) : Prop :=
  ∀ s r t, tryM s = some (r, t) → t.length < s.length

/-! ## Combinator lemmas -/

theorem expectLit_append (l r : Chars) : expectLit l (l ++ r) = some r := by
  induction l with
  | nil => rfl
  | cons c t ih => simp [expectLit, ih]

theorem expectLit_sound {l s t : Chars} (h : expectLit l s = some t) : s = l ++ t := by
  induction l generalizing s with
  | nil => simp only [expectLit, Option.some.injEq] at h; simp [h]
  | cons c l ih =>
    cases s with
    | nil => simp [expectLit] at h
    | cons d s' =>
      simp only [expectLit] at h
      split at h
      · rename_i hcd; subst hcd; rw [ih h]; rfl
      · exact absurd h (by simp)

theorem expectLit_len {l s t : Chars} (h : expectLit l s = some t) :
    s.length = l.length + t.length := by
  rw [expectLit_sound h]; simp

theorem runSplit_eq_append (p : Char → Bool) (s : Chars) :
    (runSplit p s).1 ++ (runSplit p s).2 = s := by
  induction s with
  | nil => rfl
  | cons c r ih =>
    by_cases h : p c
    · simp [runSplit, h, ih]
    · simp [runSplit, h]

theorem runSplit_sat (p : Char → Bool) (s : Chars) :
    ∀ c ∈ (runSplit p s).1, p c = true := by
  induction s with
  | nil => simp [runSplit]
  | cons c r ih =>
    by_cases h : p c
    · simp only [runSplit, h, if_pos]
      intro d hd
      rcases List.mem_cons.mp hd with h1 | h1
      · rw [h1]; exact h
      · exact ih d h1
    · simp [runSplit, h]

theorem runSplit_append {p : Char → Bool} {w r : Chars}
    (hw : ∀ c ∈ w, p c = true) (hr : ∀ c t, r = c :: t → p c = false) :
    runSplit p (w ++ r) = (w, r) := by
  induction w with
  | nil =>
    cases r with
    | nil => rfl
    | cons c t => simp [runSplit, hr c t rfl]
  | cons c w' ih =>
    have hc : p c = true := hw c (by simp)
    have ih' := ih (fun d hd => hw d (by simp [hd]))
    simp [runSplit, hc, ih']

theorem run1_sound {p : Char → Bool} {s x t : Chars} (h : run1 p s = some (x, t)) :
    s = x ++ t ∧ x ≠ [] ∧ ∀ c ∈ x, p c = true := by
  unfold run1 at h
  rcases hab : runSplit p s with ⟨a, b⟩
  rw [hab] at h
  simp only at h
  split at h
  · exact absurd h (by simp)
  · rename_i hne
    simp only [Option.some.injEq, Prod.mk.injEq] at h
    obtain ⟨rfl, rfl⟩ := h
    refine ⟨?_, by simpa [List.isEmpty_iff] using hne, ?_⟩
    · rw [← runSplit_eq_append p s, hab]
    · have := runSplit_sat p s; rw [hab] at this; exact this

theorem run1_append {p : Char → Bool} {x r : Chars}
    (hx : x ≠ []) (hxs : ∀ c ∈ x, p c = true)
    (hr : ∀ c t, r = c :: t → p c = false) :
    run1 p (x ++ r) = some (x, r) := by
  unfold run1
  rw [runSplit_append hxs hr]
  simp [List.isEmpty_iff, hx]

theorem run1Lit_sound {p : Char → Bool} {lit s x t : Chars}
    (h : run1Lit p lit s = some (x, t)) :
    s = x ++ lit ++ t ∧ x ≠ [] ∧ ∀ c ∈ x, p c = true := by
  unfold run1Lit at h
  rcases hab : runSplit p s with ⟨a, b⟩
  rw [hab] at h
  simp only at h
  split at h
  · exact absurd h (by simp)
  · rename_i hne
    cases he : expectLit lit b with
    | none => rw [he] at h; simp at h
    | some u =>
      rw [he] at h
      simp only [Option.map_some', Option.some.injEq, Prod.mk.injEq] at h
      obtain ⟨rfl, rfl⟩ := h
      have hb : b = lit ++ u := expectLit_sound he
      have hs : a ++ b = s := by rw [← runSplit_eq_append p s, hab]
      have hsat := runSplit_sat p s; rw [hab] at hsat
      refine ⟨?_, by simpa [List.isEmpty_iff] using hne, hsat⟩
      rw [← hs, hb, List.append_assoc]

theorem run1Lit_append {p : Char → Bool} {x lit r : Chars}
    (hx : x ≠ []) (hxs : ∀ c ∈ x, p c = true)
    {d : Char} {l' : Chars} (hlit : lit = d :: l') (hd : p d = false) :
    run1Lit p lit (x ++ (lit ++ r)) = some (x, r) := by
  unfold run1Lit
  rw [runSplit_append hxs (by intro c t hct; rw [hlit] at hct; simp at hct; rw [← hct.1]; exact hd)]
  simp [List.isEmpty_iff, hx, expectLit_append]

theorem run0Lit_sound {p : Char → Bool} {lit s x t : Chars}
    (h : run0Lit p lit s = some (x, t)) :
    s = x ++ lit ++ t ∧ ∀ c ∈ x, p c = true := by
  unfold run0Lit at h
  rcases hab : runSplit p s with ⟨a, b⟩
  rw [hab] at h
  simp only at h
  cases he : expectLit lit b with
  | none => rw [he] at h; simp at h
  | some u =>
    rw [he] at h
    simp only [Option.map_some', Option.some.injEq, Prod.mk.injEq] at h
    obtain ⟨rfl, rfl⟩ := h
    have hb : b = lit ++ u := expectLit_sound he
    have hs : a ++ b = s := by rw [← runSplit_eq_append p s, hab]
    have hsat := runSplit_sat p s; rw [hab] at hsat
    exact ⟨by rw [← hs, hb, List.append_assoc], hsat⟩

theorem run0Lit_append {p : Char → Bool} {x lit r : Chars}
    (hxs : ∀ c ∈ x, p c = true)
    {d : Char} {l' : Chars} (hlit : lit = d :: l') (hd : p d = false) :
    run0Lit p lit (x ++ (lit ++ r)) = some (x, r) := by
  unfold run0Lit
  rw [runSplit_append hxs (by intro c t hct; rw [hlit] at hct; simp at hct; rw [← hct.1]; exact hd)]
  simp [expectLit_append]

theorem wsLit_sound {k : Nat} {lit s w t : Chars} (h : wsLit k lit s = some (w, t)) :
    s = w ++ lit ++ t ∧ (∀ c ∈ w, isPySpace c = true) ∧ k ≤ w.count '\n' := by
  unfold wsLit at h
  rcases hab : runSplit isPySpace s with ⟨a, b⟩
  rw [hab] at h
  simp only at h
  split at h
  · rename_i hk
    cases he : expectLit lit b with
    | none => rw [he] at h; simp at h
    | some u =>
      rw [he] at h
      simp only [Option.map_some', Option.some.injEq, Prod.mk.injEq] at h
      obtain ⟨rfl, rfl⟩ := h
      have hb : b = lit ++ u := expectLit_sound he
      have hs : a ++ b = s := by rw [← runSplit_eq_append isPySpace s, hab]
      have hsat := runSplit_sat isPySpace s; rw [hab] at hsat
      exact ⟨by rw [← hs, hb, List.append_assoc], hsat, hk⟩
  · exact absurd h (by simp)

theorem wsLit_append {k : Nat} {w lit r : Chars}
    (hw : ∀ c ∈ w, isPySpace c = true) (hk : k ≤ w.count '\n')
    {d : Char} {l' : Chars} (hlit : lit = d :: l') (hd : isPySpace d = false) :
    wsLit k lit (w ++ (lit ++ r)) = some (w, r) := by
  unfold wsLit
  rw [runSplit_append hw (by intro c t hct; rw [hlit] at hct; simp at hct; rw [← hct.1]; exact hd)]
  simp [hk, expectLit_append]

theorem ws1Lit_sound {lit s w t : Chars} (h : ws1Lit lit s = some (w, t)) :
    s = w ++ lit ++ t ∧ (∀ c ∈ w, isPySpace c = true) ∧ w ≠ [] := by
  unfold ws1Lit at h
  rcases hab : runSplit isPySpace s with ⟨a, b⟩
  rw [hab] at h
  simp only at h
  split at h
  · exact absurd h (by simp)
  · rename_i hne
    cases he : expectLit lit b with
    | none => rw [he] at h; simp at h
    | some u =>
      rw [he] at h
      simp only [Option.map_some', Option.some.injEq, Prod.mk.injEq] at h
      obtain ⟨rfl, rfl⟩ := h
      have hb : b = lit ++ u := expectLit_sound he
      have hs : a ++ b = s := by rw [← runSplit_eq_append isPySpace s, hab]
      have hsat := runSplit_sat isPySpace s; rw [hab] at hsat
      exact ⟨by rw [← hs, hb, List.append_assoc], hsat, by simpa [List.isEmpty_iff] using hne⟩

theorem ws1Lit_append {w lit r : Chars}
    (hw : ∀ c ∈ w, isPySpace c = true) (hne : w ≠ [])
    {d : Char} {l' : Chars} (hlit : lit = d :: l') (hd : isPySpace d = false) :
    ws1Lit lit (w ++ (lit ++ r)) = some (w, r) := by
  unfold ws1Lit
  rw [runSplit_append hw (by intro c t hct; rw [hlit] at hct; simp at hct; rw [← hct.1]; exact hd)]
  simp [List.isEmpty_iff, hne, expectLit_append]

theorem wsNl_append {k : Nat} {w r : Chars}
    (hw : ∀ c ∈ w, isPySpace c = true) (hk : k ≤ w.count '\n')
    (hr : ∀ c t, r = c :: t → isPySpace c = false) :
    wsNl k (w ++ r) = some (w, r) := by
  unfold wsNl
  rw [runSplit_append hw hr]
  simp [hk]

theorem wsLastNl_one {r : Chars} (hr : ∀ c t, r = c :: t → isPySpace c = false) :
    wsLastNl 1 ('\n' :: r) = some r := by
  unfold wsLastNl
  have h1 : runSplit isPySpace ('\n' :: r) = (['\n'], r) := by
    have : ('\n' :: r : Chars) = ['\n'] ++ r := rfl
    rw [this]
    exact runSplit_append (by simp [isPySpace]) hr
  rw [h1]
  simp [List.count_cons]

/-! ## Length and consumption lemmas -/

theorem run1_le {p : Char → Bool} {s x t : Chars} (h : run1 p s = some (x, t)) :
    t.length ≤ s.length := by
  obtain ⟨hs, -, -⟩ := run1_sound h
  rw [hs]; simp

theorem run1Lit_le {p : Char → Bool} {lit s x t : Chars}
    (h : run1Lit p lit s = some (x, t)) : t.length ≤ s.length := by
  obtain ⟨hs, -, -⟩ := run1Lit_sound h
  rw [hs]; simp; omega

theorem run0Lit_le {p : Char → Bool} {lit s x t : Chars}
    (h : run0Lit p lit s = some (x, t)) : t.length ≤ s.length := by
  obtain ⟨hs, -⟩ := run0Lit_sound h
  rw [hs]; simp; omega

theorem wsLit_le {k : Nat} {lit s w t : Chars} (h : wsLit k lit s = some (w, t)) :
    t.length ≤ s.length := by
  obtain ⟨hs, -, -⟩ := wsLit_sound h
  rw [hs]; simp; omega

theorem ws1Lit_le {lit s w t : Chars} (h : ws1Lit lit s = some (w, t)) :
    t.length ≤ s.length := by
  obtain ⟨hs, -, -⟩ := ws1Lit_sound h
  rw [hs]; simp; omega

theorem wsNl_le {k : Nat} {s w t : Chars} (h : wsNl k s = some (w, t)) :
    t.length ≤ s.length := by
  unfold wsNl at h
  rcases hab : runSplit isPySpace s with ⟨a, b⟩
  rw [hab] at h
  simp only at h
  split at h
  · simp only [Option.some.injEq, Prod.mk.injEq] at h
    obtain ⟨rfl, rfl⟩ := h
    have hs : a ++ b = s := by rw [← runSplit_eq_append isPySpace s, hab]
    rw [← hs]; simp
  · exact absurd h (by simp)

theorem wsLastNl_le {k : Nat} {s t : Chars} (h : wsLastNl k s = some t) :
    t.length ≤ s.length := by
  unfold wsLastNl at h
  rcases hab : runSplit isPySpace s with ⟨a, b⟩
  rw [hab] at h
  simp only at h
  split at h
  · simp only [Option.some.injEq] at h
    have hs : a ++ b = s := by rw [← runSplit_eq_append isPySpace s, hab]
    have h1 : (a.reverse.takeWhile (fun c => !(c == '\n'))).length ≤ a.length := by
      calc (a.reverse.takeWhile (fun c => !(c == '\n'))).length
          ≤ a.reverse.length := (List.takeWhile_prefix _).length_le
        _ = a.length := by simp
    rw [← h, ← hs]
    simp only [List.length_append, List.length_reverse]
    omega
  · exact absurd h (by simp)

theorem quoteOne_le {s t : Chars} (h : quoteOne s = some t) : t.length < s.length := by
  unfold quoteOne at h
  cases s with
  | nil => simp at h
  | cons c s' =>
    simp only at h
    split at h
    · simp only [Option.some.injEq] at h; rw [← h]; simp
    · exact absurd h (by simp)

theorem ws1Quote_le {s t : Chars} (h : ws1Quote s = some t) : t.length ≤ s.length := by
  unfold ws1Quote at h
  rcases hab : runSplit isPySpace s with ⟨a, b⟩
  rw [hab] at h
  simp only at h
  split at h
  · exact absurd h (by simp)
  · have hs : a ++ b = s := by rw [← runSplit_eq_append isPySpace s, hab]
    have := quoteOne_le h
    rw [← hs]; simp; omega

theorem invTry_strict : ConsumesStrict invTry := by
  intro s r t h
  unfold invTry at h
  cases h1 : expectLit (strOf "getFoodCategoryId(\x27") s with
  | none => simp [h1] at h
  | some s1 =>
  simp only [h1] at h
  cases h2 : run1Lit (fun c => c != '\x27') (strOf "\x27,") s1 with
  | none => simp [h2] at h
  | some p2 =>
  obtain ⟨x, s2⟩ := p2
  simp only [h2] at h
  cases h3 : wsLit 0 (strOf "\x27") s2 with
  | none => simp [h3] at h
  | some p3 =>
  obtain ⟨w, s3⟩ := p3
  simp only [h3] at h
  cases h4 : run1Lit (fun c => c != '\x27') (strOf "\x27)") s3 with
  | none => simp [h4] at h
  | some p4 =>
  obtain ⟨y, s4⟩ := p4
  simp only [h4, Option.some.injEq, Prod.mk.injEq] at h
  obtain ⟨-, rfl⟩ := h
  have l1 := expectLit_len h1
  have l2 := run1Lit_le h2
  have l3 := wsLit_le h3
  have l4 := run1Lit_le h4
  have : (strOf "getFoodCategoryId(\x27").length = 19 := by decide
  omega

theorem asyncTry_strict : ConsumesStrict asyncTry := by
  intro s r t h
  unfold asyncTry at h
  cases h1 : expectLit (strOf "async function ") s with
  | none => simp [h1] at h
  | some s1 =>
  simp only [h1] at h
  cases h2 : run1Lit isWordChar (strOf "(") s1 with
  | none => simp [h2] at h
  | some p2 =>
  obtain ⟨x, s2⟩ := p2
  simp only [h2, Option.some.injEq, Prod.mk.injEq] at h
  obtain ⟨-, rfl⟩ := h
  have l1 := expectLit_len h1
  have l2 := run1Lit_le h2
  have : (strOf "async function ").length = 15 := by decide
  omega

theorem impAuthTry_strict : ConsumesStrict impAuthTry := by
  intro s r t h
  unfold impAuthTry at h
  cases h1 : expectLit (strOf "import") s with
  | none => simp [h1] at h
  | some s1 =>
  simp only [h1] at h
  cases h2 : ws1Lit (strOf "\x7b") s1 with
  | none => simp [h2] at h
  | some p2 =>
  obtain ⟨w1, s2⟩ := p2
  simp only [h2] at h
  cases h3 : wsLit 0 (strOf "auth") s2 with
  | none => simp [h3] at h
  | some p3 =>
  obtain ⟨w2, s3⟩ := p3
  simp only [h3] at h
  cases h4 : wsLit 0 (strOf "\x7d") s3 with
  | none => simp [h4] at h
  | some p4 =>
  obtain ⟨w3, s4⟩ := p4
  simp only [h4] at h
  cases h5 : ws1Lit (strOf "from") s4 with
  | none => simp [h5] at h
  | some p5 =>
  obtain ⟨w4, s5⟩ := p5
  simp only [h5] at h
  cases h6 : ws1Quote s5 with
  | none => simp [h6] at h
  | some s6 =>
  simp only [h6] at h
  cases h7 : expectLit (strOf "@/lib/auth") s6 with
  | none => simp [h7] at h
  | some s7 =>
  simp only [h7] at h
  cases h8 : quoteOne s7 with
  | none => simp [h8] at h
  | some s8 =>
  simp only [h8] at h
  cases h9 : wsLastNl 1 s8 with
  | none => simp [h9] at h
  | some s9 =>
  simp only [h9, Option.some.injEq, Prod.mk.injEq] at h
  obtain ⟨-, rfl⟩ := h
  have l1 := expectLit_len h1
  have l2 := ws1Lit_le h2
  have l3 := wsLit_le h3
  have l4 := wsLit_le h4
  have l5 := ws1Lit_le h5
  have l6 := ws1Quote_le h6
  have l7 := expectLit_len h7
  have l8 := quoteOne_le h8
  have l9 := wsLastNl_le h9
  have : (strOf "import").length = 6 := by decide
  omega

theorem impRedirTry_strict : ConsumesStrict impRedirTry := by
  intro s r t h
  unfold impRedirTry at h
  cases h1 : expectLit (strOf "import") s with
  | none => simp [h1] at h
  | some s1 =>
  simp only [h1] at h
  cases h2 : ws1Lit (strOf "\x7b") s1 with
  | none => simp [h2] at h
  | some p2 =>
  obtain ⟨w1, s2⟩ := p2
  simp only [h2] at h
  cases h3 : wsLit 0 (strOf "redirect") s2 with
  | none => simp [h3] at h
  | some p3 =>
  obtain ⟨w2, s3⟩ := p3
  simp only [h3] at h
  cases h4 : wsLit 0 (strOf "\x7d") s3 with
  | none => simp [h4] at h
  | some p4 =>
  obtain ⟨w3, s4⟩ := p4
  simp only [h4] at h
  cases h5 : ws1Lit (strOf "from") s4 with
  | none => simp [h5] at h
  | some p5 =>
  obtain ⟨w4, s5⟩ := p5
  simp only [h5] at h
  cases h6 : ws1Quote s5 with
  | none => simp [h6] at h
  | some s6 =>
  simp only [h6] at h
  cases h7 : expectLit (strOf "next/navigation") s6 with
  | none => simp [h7] at h
  | some s7 =>
  simp only [h7] at h
  cases h8 : quoteOne s7 with
  | none => simp [h8] at h
  | some s8 =>
  simp only [h8] at h
  cases h9 : wsLastNl 1 s8 with
  | none => simp [h9] at h
  | some s9 =>
  simp only [h9, Option.some.injEq, Prod.mk.injEq] at h
  obtain ⟨-, rfl⟩ := h
  have l1 := expectLit_len h1
  have l2 := ws1Lit_le h2
  have l3 := wsLit_le h3
  have l4 := wsLit_le h4
  have l5 := ws1Lit_le h5
  have l6 := ws1Quote_le h6
  have l7 := expectLit_len h7
  have l8 := quoteOne_le h8
  have l9 := wsLastNl_le h9
  have : (strOf "import").length = 6 := by decide
  omega

theorem apTry_strict : ConsumesStrict apTry := by
  intro s r t h
  unfold apTry at h
  cases h1 : expectLit (strOf "async function ") s with
  | none => simp [h1] at h
  | some s1 =>
  simp only [h1] at h
  cases h2 : run1 isWordChar s1 with
  | none => simp [h2] at h
  | some p2 =>
  obtain ⟨fname, s2⟩ := p2
  simp only [h2] at h
  cases h3 : wsLit 0 (strOf "(") s2 with
  | none => simp [h3] at h
  | some p3 =>
  obtain ⟨g3, s3⟩ := p3
  simp only [h3] at h
  cases h4 : wsLit 0 (strOf "\x7b") s3 with
  | none => simp [h4] at h
  | some p4 =>
  obtain ⟨g4, s4⟩ := p4
  simp only [h4] at h
  cases h5 : wsLit 1 (strOf "// Authentication check") s4 with
  | none => simp [h5] at h
  | some p5 =>
  obtain ⟨g5, s5⟩ := p5
  simp only [h5] at h
  cases h6 : wsLit 1 (strOf "const session = await auth()") s5 with
  | none => simp [h6] at h
  | some p6 =>
  obtain ⟨g6, s6⟩ := p6
  simp only [h6] at h
  cases h7 : wsLit 1 (strOf "const sppgId = session?.user?.sppgId") s6 with
  | none => simp [h7] at h
  | some p7 =>
  obtain ⟨g7, s7⟩ := p7
  simp only [h7] at h
  cases h8 : wsLit 2 (strOf "if (!sppgId) \x7b") s7 with
  | none => simp [h8] at h
  | some p8 =>
  obtain ⟨g8, s8⟩ := p8
  simp only [h8] at h
  cases h9 : wsLit 1 (strOf "redirect(") s8 with
  | none => simp [h9] at h
  | some p9 =>
  obtain ⟨g9, s9⟩ := p9
  simp only [h9] at h
  cases h10 : run1Lit (fun c => c != ')') (strOf ")") s9 with
  | none => simp [h10] at h
  | some p10 =>
  obtain ⟨g10, s10⟩ := p10
  simp only [h10] at h
  cases h11 : wsLit 1 (strOf "\x7d") s10 with
  | none => simp [h11] at h
  | some p11 =>
  obtain ⟨g11, s11⟩ := p11
  simp only [h11] at h
  cases h12 : wsLit 2 (strOf "params") s11 with
  | none => simp [h12] at h
  | some p12 =>
  obtain ⟨g12, s12⟩ := p12
  simp only [h12] at h
  cases h13 : run0Lit (fun c => c != '\x7d') (strOf "\x7d") s12 with
  | none => simp [h13] at h
  | some p13 =>
  obtain ⟨ptail, s13⟩ := p13
  simp only [h13] at h
  cases h14 : wsLit 0 (strOf ":") s13 with
  | none => simp [h14] at h
  | some p14 =>
  obtain ⟨g14, s14⟩ := p14
  simp only [h14] at h
  cases h15 : wsLit 0 (strOf "\x7b") s14 with
  | none => simp [h15] at h
  | some p15 =>
  obtain ⟨g15, s15⟩ := p15
  simp only [h15] at h
  cases h16 : run1Lit (fun c => c != '\x7d') (strOf "\x7d") s15 with
  | none => simp [h16] at h
  | some p16 =>
  obtain ⟨tyInner, s16⟩ := p16
  simp only [h16] at h
  cases h17 : wsLit 0 (strOf ")") s16 with
  | none => simp [h17] at h
  | some p17 =>
  obtain ⟨g17, s17⟩ := p17
  simp only [h17] at h
  cases h18 : wsLit 0 (strOf "\x7b") s17 with
  | none => simp [h18] at h
  | some p18 =>
  obtain ⟨g18, s18⟩ := p18
  simp only [h18, Option.some.injEq, Prod.mk.injEq] at h
  obtain ⟨-, rfl⟩ := h
  have l1 := expectLit_len h1
  have l2 := run1_le h2
  have l3 := wsLit_le h3
  have l4 := wsLit_le h4
  have l5 := wsLit_le h5
  have l6 := wsLit_le h6
  have l7 := wsLit_le h7
  have l8 := wsLit_le h8
  have l9 := wsLit_le h9
  have l10 := run1Lit_le h10
  have l11 := wsLit_le h11
  have l12 := wsLit_le h12
  have l13 := run0Lit_le h13
  have l14 := wsLit_le h14
  have l15 := wsLit_le h15
  have l16 := run1Lit_le h16
  have l17 := wsLit_le h17
  have l18 := wsLit_le h18
  have : (strOf "async function ").length = 15 := by decide
  omega

/-! ## Scan lemmas for `subAll` -/

theorem subFuel_eq_min {tryM : Chars → Option (Chars × Chars)}
    (hs : ConsumesStrict tryM) :
    ∀ n s, s.length ≤ n → subFuel tryM n s = subFuel tryM s.length s := by
  intro n
  induction n using Nat.strong_induction_on with
  | _ n ih =>
    intro s hn
    match n with
    | 0 =>
      have : s = [] := by
        cases s with
        | nil => rfl
        | cons c t => simp at hn
      subst this; rfl
    | Nat.succ n' =>
      cases htry : tryM s with
      | some p =>
        obtain ⟨r, t⟩ := p
        have ht : t.length < s.length := hs _ _ _ htry
        obtain ⟨k, hk⟩ : ∃ k, s.length = k + 1 := ⟨s.length - 1, by omega⟩
        have e1 : subFuel tryM (n' + 1) s = r ++ subFuel tryM n' t := by
          simp [subFuel, htry]
        have e2 : subFuel tryM s.length s = r ++ subFuel tryM k t := by
          rw [hk]; simp [subFuel, htry]
        rw [e1, e2]
        have r1 : subFuel tryM n' t = subFuel tryM t.length t :=
          ih n' (by omega) t (by omega)
        have r2 : subFuel tryM k t = subFuel tryM t.length t :=
          ih k (by omega) t (by omega)
        rw [r1, r2]
      | none =>
        cases s with
        | nil =>
          simp [subFuel, htry]
        | cons c s' =>
          have e1 : subFuel tryM (n' + 1) (c :: s') = c :: subFuel tryM n' s' := by
            simp [subFuel, htry]
          have e2 : subFuel tryM (c :: s').length (c :: s') =
              c :: subFuel tryM s'.length s' := by
            simp [subFuel, htry]
          rw [e1, e2]
          have hn' : s'.length ≤ n' := by simp at hn; omega
          have r1 : subFuel tryM n' s' = subFuel tryM s'.length s' :=
            ih n' (by omega) s' hn'
          rw [r1]

/-- On a match at the current position, `re.sub` emits the replacement and
continues after the consumed text. -/
theorem subAll_match {tryM : Chars → Option (Chars × Chars)}
    (hs : ConsumesStrict tryM) {s r t : Chars} (h : tryM s = some (r, t)) :
    subAll tryM s = r ++ subAll tryM t := by
  unfold subAll
  have ht : t.length < s.length := hs _ _ _ h
  obtain ⟨k, hk⟩ : ∃ k, s.length = k + 1 := ⟨s.length - 1, by omega⟩
  rw [hk]
  simp only [subFuel, h]
  rw [subFuel_eq_min hs k t (by omega)]

/-- Without a match at the current position, `re.sub` copies one character. -/
theorem subAll_copy {tryM : Chars → Option (Chars × Chars)} {c : Char} {s : Chars}
    (h : tryM (c :: s) = none) :
    subAll tryM (c :: s) = c :: subAll tryM s := by
  unfold subAll
  simp [subFuel, h]

/-- If the pattern matches nowhere, `re.sub` is the identity. -/
theorem subAll_id_of_no_match {tryM : Chars → Option (Chars × Chars)} :
    ∀ {s : Chars}, reSearch tryM s = false → subAll tryM s = s := by
  intro s
  induction s with
  | nil => intro h; rfl
  | cons c t ih =>
    intro h
    simp only [reSearch, Bool.or_eq_false_iff] at h
    have h1 : tryM (c :: t) = none := by
      cases htry : tryM (c :: t) with
      | none => rfl
      | some p => rw [htry] at h; simp at h
    rw [subAll_copy h1, ih h.2]

/-! ## Prefix-evaluation lemmas: a junction evaluated on a closed input
evaluates the same way when more text is appended, as long as the junction's
trailing delimiter keeps the greedy run from extending. -/

theorem runSplit_snd_head {p : Char → Bool} {s : Chars} {c : Char} {t : Chars}
    (h : (runSplit p s).2 = c :: t) : p c = false := by
  induction s with
  | nil => simp [runSplit] at h
  | cons d s' ih =>
    by_cases hd : p d
    · simp only [runSplit, hd, if_pos] at h
      exact ih h
    · simp only [runSplit, hd, if_neg, Bool.false_eq_true, not_false_iff] at h
      obtain ⟨rfl, -⟩ := List.cons.injEq .. ▸ h
      · simpa using hd

theorem runSplit_pre {p : Char → Bool} {s a : Chars} {c : Char} {b : Chars}
    (h : runSplit p s = (a, c :: b)) (r : Chars) :
    runSplit p (s ++ r) = (a, c :: b ++ r) := by
  have hs : a ++ (c :: b) = s := by rw [← runSplit_eq_append p s, h]
  have hsat := runSplit_sat p s; rw [h] at hsat
  have hc : p c = false := runSplit_snd_head (by rw [h])
  rw [← hs, List.append_assoc]
  exact runSplit_append hsat (by intro d u hdu; cases hdu; exact hc)

theorem expectLit_pre {l s t : Chars} (h : expectLit l s = some t) (r : Chars) :
    expectLit l (s ++ r) = some (t ++ r) := by
  rw [expectLit_sound h, List.append_assoc]
  exact expectLit_append _ _

theorem run1Lit_pre {p : Char → Bool} {lit s x t : Chars}
    (h : run1Lit p lit s = some (x, t)) {d : Char} {l' : Chars}
    (hlit : lit = d :: l') (r : Chars) :
    run1Lit p lit (s ++ r) = some (x, t ++ r) := by
  unfold run1Lit at h ⊢
  rcases hab : runSplit p s with ⟨a, b⟩
  rw [hab] at h
  simp only at h
  split at h
  · exact absurd h (by simp)
  · rename_i hne
    cases he : expectLit lit b with
    | none => rw [he] at h; simp at h
    | some u =>
      rw [he] at h
      simp only [Option.map_some', Option.some.injEq, Prod.mk.injEq] at h
      obtain ⟨rfl, rfl⟩ := h
      have hb : b = d :: (l' ++ u) := by rw [expectLit_sound he, hlit]; rfl
      rw [runSplit_pre (by rw [hab, hb]) r]
      simp only [hne, if_neg, List.isEmpty_iff]
      have : (d :: (l' ++ u) : Chars) ++ r = lit ++ (u ++ r) := by
        rw [hlit]; simp
      rw [show (d :: (l' ++ u) ++ r : Chars) = lit ++ (u ++ r) from this,
        expectLit_append]
      simp [List.isEmpty_iff] at hne ⊢

theorem run0Lit_pre {p : Char → Bool} {lit s x t : Chars}
    (h : run0Lit p lit s = some (x, t)) {d : Char} {l' : Chars}
    (hlit : lit = d :: l') (r : Chars) :
    run0Lit p lit (s ++ r) = some (x, t ++ r) := by
  unfold run0Lit at h ⊢
  rcases hab : runSplit p s with ⟨a, b⟩
  rw [hab] at h
  simp only at h
  cases he : expectLit lit b with
  | none => rw [he] at h; simp at h
  | some u =>
    rw [he] at h
    simp only [Option.map_some', Option.some.injEq, Prod.mk.injEq] at h
    obtain ⟨rfl, rfl⟩ := h
    have hb : b = d :: (l' ++ u) := by rw [expectLit_sound he, hlit]; rfl
    rw [runSplit_pre (by rw [hab, hb]) r]
    simp only
    have : (d :: (l' ++ u) : Chars) ++ r = lit ++ (u ++ r) := by
      rw [hlit]; simp
    rw [show (d :: (l' ++ u) ++ r : Chars) = lit ++ (u ++ r) from this,
      expectLit_append]
    rfl

theorem wsLit_pre {k : Nat} {lit s w t : Chars}
    (h : wsLit k lit s = some (w, t)) {d : Char} {l' : Chars}
    (hlit : lit = d :: l') (r : Chars) :
    wsLit k lit (s ++ r) = some (w, t ++ r) := by
  unfold wsLit at h ⊢
  rcases hab : runSplit isPySpace s with ⟨a, b⟩
  rw [hab] at h
  simp only at h
  split at h
  · rename_i hk
    cases he : expectLit lit b with
    | none => rw [he] at h; simp at h
    | some u =>
      rw [he] at h
      simp only [Option.map_some', Option.some.injEq, Prod.mk.injEq] at h
      obtain ⟨rfl, rfl⟩ := h
      have hb : b = d :: (l' ++ u) := by rw [expectLit_sound he, hlit]; rfl
      rw [runSplit_pre (by rw [hab, hb]) r]
      simp only [hk, if_pos]
      have : (d :: (l' ++ u) : Chars) ++ r = lit ++ (u ++ r) := by
        rw [hlit]; simp
      rw [show (d :: (l' ++ u) ++ r : Chars) = lit ++ (u ++ r) from this,
        expectLit_append]
      rfl
  · exact absurd h (by simp)

theorem ws1Lit_pre {lit s w t : Chars}
    (h : ws1Lit lit s = some (w, t)) {d : Char} {l' : Chars}
    (hlit : lit = d :: l') (r : Chars) :
    ws1Lit lit (s ++ r) = some (w, t ++ r) := by
  unfold ws1Lit at h ⊢
  rcases hab : runSplit isPySpace s with ⟨a, b⟩
  rw [hab] at h
  simp only at h
  split at h
  · exact absurd h (by simp)
  · rename_i hne
    cases he : expectLit lit b with
    | none => rw [he] at h; simp at h
    | some u =>
      rw [he] at h
      simp only [Option.map_some', Option.some.injEq, Prod.mk.injEq] at h
      obtain ⟨rfl, rfl⟩ := h
      have hb : b = d :: (l' ++ u) := by rw [expectLit_sound he, hlit]; rfl
      rw [runSplit_pre (by rw [hab, hb]) r]
      simp only [hne, if_neg, List.isEmpty_iff]
      have : (d :: (l' ++ u) : Chars) ++ r = lit ++ (u ++ r) := by
        rw [hlit]; simp
      rw [show (d :: (l' ++ u) ++ r : Chars) = lit ++ (u ++ r) from this,
        expectLit_append]
      simp [List.isEmpty_iff] at hne ⊢

theorem wsNl_pre {k : Nat} {s w : Chars} {c : Char} {t : Chars}
    (h : wsNl k s = some (w, c :: t)) (r : Chars) :
    wsNl k (s ++ r) = some (w, c :: t ++ r) := by
  unfold wsNl at h ⊢
  rcases hab : runSplit isPySpace s with ⟨a, b⟩
  rw [hab] at h
  simp only at h
  split at h
  · rename_i hk
    simp only [Option.some.injEq, Prod.mk.injEq] at h
    obtain ⟨rfl, rfl⟩ := h
    rw [runSplit_pre hab r]
    simp [hk]
  · exact absurd h (by simp)

theorem run1_pre {p : Char → Bool} {s x : Chars} {c : Char} {t : Chars}
    (h : run1 p s = some (x, c :: t)) (r : Chars) :
    run1 p (s ++ r) = some (x, c :: t ++ r) := by
  unfold run1 at h ⊢
  rcases hab : runSplit p s with ⟨a, b⟩
  rw [hab] at h
  simp only at h
  split at h
  · exact absurd h (by simp)
  · rename_i hne
    simp only [Option.some.injEq, Prod.mk.injEq] at h
    obtain ⟨rfl, rfl⟩ := h
    rw [runSplit_pre hab r]
    simp only [hne, if_neg]
    rfl

/-- Head-failure helper: a list with an explicit head gives the head-condition
needed by `runSplit_append`. -/
theorem headNot_cons {p : Char → Bool} {c : Char} (hc : p c = false) (t : Chars) :
    ∀ d u, (c :: t : Chars) = d :: u → p d = false := by
  intro d u h
  cases h
  exact hc

/-! ## Claim theorems -/

/-- C6: whenever a seed script produces a backup file, the backup's content is
byte-identical to the target file's content as freshly read immediately before
the rewrite is applied (the backup is written before the target is
overwritten). -/
theorem c6_backup_fidelity :
    ∀ st : SeedState,
      (run_fix_inventory_calls st).backup = some st.file ∧
      (run_update_menu_seed st).backup = some st.file :=
  fun _ => ⟨rfl, rfl⟩

/-- C9: the two seed-patching scripts write unconditionally on every
invocation: the backup and then the target are overwritten even when the
substitution changes nothing, so a second run replaces the previous backup
with the already-transformed output of the first run. -/
theorem c9_unconditional_writes :
    ∀ st : SeedState,
      run_fix_inventory_calls st =
        { file := invSub st.file, backup := some st.file } ∧
      run_fix_inventory_calls (run_fix_inventory_calls st) =
        { file := invSub (invSub st.file), backup := some (invSub st.file) } ∧
      run_update_menu_seed st =
        { file := menuTransform st.file, backup := some st.file } ∧
      run_update_menu_seed (run_update_menu_seed st) =
        { file := menuTransform (menuTransform st.file),
          backup := some (menuTransform st.file) } :=
  fun _ => ⟨rfl, rfl, rfl, rfl⟩

/-- C7: a file whose content does not contain the marker substring
`// Authentication check` is reported as skipped by both relocation scripts
and is never written to (its content is unchanged). -/
theorem c7_no_marker_skip (c : Chars) (h : containsSub authMarker c = false) :
    process_file_ap c = (Outcome.skip (strOf "No auth check"), c) ∧
    process_file_nj c = (Outcome.skip (strOf "No auth check"), c) := by
  unfold process_file_ap process_file_nj
  simp [h]

/-- C7 witness: a concrete marker-free file is skipped unchanged. -/
theorem c7_no_marker_skip_witness :
    process_file_ap (strOf "hello") =
      (Outcome.skip (strOf "No auth check"), strOf "hello") ∧
    process_file_nj (strOf "hello") =
      (Outcome.skip (strOf "No auth check"), strOf "hello") :=
  c7_no_marker_skip (strOf "hello") (by decide)

/-- C8: in the client-component script a listed file is written back only when
the substitutions change its content: an unchanged file is reported as needing
no changes, its content is untouched, and it contributes nothing to the fixed
total. -/
theorem c8_client_unchanged_frame (c : Chars)
    (h : fix_client_component_auth c = c) :
    client_step c = (Outcome.skip (strOf "No changes needed"), c, 0) ∧
    ∀ l : List Chars, client_fixed_count (c :: l) = client_fixed_count l := by
  constructor
  · unfold client_step
    simp [h]
  · intro l
    unfold client_fixed_count client_step
    simp [h]

/-- C8 witness: a concrete unchanged file yields the no-changes outcome and
does not contribute to the fixed count. -/
theorem c8_client_unchanged_frame_witness :
    client_step (strOf "x") =
      (Outcome.skip (strOf "No changes needed"), strOf "x", 0) ∧
    ∀ l : List Chars, client_fixed_count (strOf "x" :: l) = client_fixed_count l :=
  c8_client_unchanged_frame (strOf "x") (by decide)

/-- C4: a file whose content contains the marker and matches the coarse
wrong-placement regex but matches the strict capture-group rewrite pattern
nowhere is reported with a skip outcome (needs manual review; no error raised)
and its content is byte-for-byte unchanged, in both relocation scripts. -/
theorem c4_strict_mismatch_skip (c : Chars)
    (hm : containsSub authMarker c = true)
    (hw1 : reSearch njWrongTry c = true)
    (hw2 : reSearch apWrongTry c = true)
    (h1 : reSearch njTry c = false)
    (h2 : reSearch apTry c = false) :
    process_file_nj c = (Outcome.skip (strOf "Pattern not matched"), c) ∧
    process_file_ap c = (Outcome.skip (strOf "No changes needed"), c) := by
  have e1 : njSub c = c := subAll_id_of_no_match h1
  have e2 : apSub c = c := subAll_id_of_no_match h2
  constructor
  · unfold process_file_nj fix_auth_in_params
    simp [hm, hw1, e1]
  · unfold process_file_ap fix_auth_placement
    simp [hm, hw2, e2]

/-- C4 witness: a concrete file with the marker misplaced inside the parameter
list but no full auth-check block; the coarse check fires, the strict pattern
does not, and both scripts skip without modifying the content. -/
theorem c4_strict_mismatch_skip_witness :
    process_file_nj (strOf "async function F(\x7b\n  // Authentication check\n  params\n\x7d: \x7b p: T \x7d) \x7b") =
      (Outcome.skip (strOf "Pattern not matched"),
        strOf "async function F(\x7b\n  // Authentication check\n  params\n\x7d: \x7b p: T \x7d) \x7b") ∧
    process_file_ap (strOf "async function F(\x7b\n  // Authentication check\n  params\n\x7d: \x7b p: T \x7d) \x7b") =
      (Outcome.skip (strOf "No changes needed"),
        strOf "async function F(\x7b\n  // Authentication check\n  params\n\x7d: \x7b p: T \x7d) \x7b") :=
  c4_strict_mismatch_skip _ (by decide) (by decide) (by decide) (by decide) (by decide)

/-- C5 as stated fails for fix-client-component-auth.py (cited by the claim):
an I/O failure raised while reading an existing listed file is not caught by
any `try/except`; the batch aborts with the exception and the remaining file
is never processed, instead of recording a per-file error status and
continuing. -/
theorem c5_uncaught_counterexample :
    client_run_batch
      [{ pathExists := true, readRes := Except.error (strOf "permission denied"),
         writeFail := none },
       { pathExists := true, readRes := Except.ok (strOf "x"), writeFail := none }] =
      Except.error (strOf "permission denied") := by
  rfl

/-- C5 amended: both relocation scripts (fix-auth-placement.py and
fix-nextjs15-auth-pattern.py) catch per-file failures raised while reading or
while writing, record them as error outcomes carrying the exception message,
and still produce one outcome for every file of the batch;
fix-client-component-auth.py only pre-checks existence (a missing path is
reported and the batch continues), while a read or write exception there is
uncaught and halts the batch. -/
theorem c5_amended_error_handling :
    (∀ fs : List FileAccess, (ap_run_batch fs).length = fs.length) ∧
    (∀ fs : List FileAccess, (nj_run_batch fs).length = fs.length) ∧
    (∀ fs : List FileAccess, ∀ i : Nat, ∀ m : Chars,
      ∀ h1 : i < fs.length, ∀ h2 : i < (ap_run_batch fs).length,
      (fs.get ⟨i, h1⟩).readRes = Except.error m →
      (ap_run_batch fs).get ⟨i, h2⟩ = Outcome.error m) ∧
    (∀ fs : List FileAccess, ∀ i : Nat, ∀ m : Chars,
      ∀ h1 : i < fs.length, ∀ h2 : i < (nj_run_batch fs).length,
      (fs.get ⟨i, h1⟩).readRes = Except.error m →
      (nj_run_batch fs).get ⟨i, h2⟩ = Outcome.error m) ∧
    (∀ fs : List FileAccess, ∀ i : Nat, ∀ c f m : Chars,
      ∀ h1 : i < fs.length, ∀ h2 : i < (ap_run_batch fs).length,
      (fs.get ⟨i, h1⟩).readRes = Except.ok c →
      process_file_ap c = (Outcome.success, f) →
      (fs.get ⟨i, h1⟩).writeFail = some m →
      (ap_run_batch fs).get ⟨i, h2⟩ = Outcome.error m) ∧
    (∀ fs : List FileAccess, ∀ i : Nat, ∀ c f m : Chars,
      ∀ h1 : i < fs.length, ∀ h2 : i < (nj_run_batch fs).length,
      (fs.get ⟨i, h1⟩).readRes = Except.ok c →
      process_file_nj c = (Outcome.success, f) →
      (fs.get ⟨i, h1⟩).writeFail = some m →
      (nj_run_batch fs).get ⟨i, h2⟩ = Outcome.error m) ∧
    (∀ fa : CFileAccess, ∀ rest : List CFileAccess, fa.pathExists = false →
      client_run_batch (fa :: rest) =
        (client_run_batch rest).map
          (fun os => Outcome.skip (strOf "Not found") :: os)) := by
  refine ⟨?_, ?_, ?_, ?_, ?_, ?_, ?_⟩
  · intro fs
    simp [ap_run_batch]
  · intro fs
    simp [nj_run_batch]
  · intro fs i m h1 h2 hread
    unfold ap_run_batch
    rw [List.get_map]
    unfold ap_run_one
    rw [hread]
  · intro fs i m h1 h2 hread
    unfold nj_run_batch
    rw [List.get_map]
    unfold nj_run_one
    rw [hread]
  · intro fs i c f m h1 h2 hread hp hwf
    unfold ap_run_batch
    rw [List.get_map]
    unfold ap_run_one
    simp only [hread, hp, hwf]
  · intro fs i c f m h1 h2 hread hp hwf
    unfold nj_run_batch
    rw [List.get_map]
    unfold nj_run_one
    simp only [hread, hp, hwf]
  · intro fa rest hpe
    unfold client_run_batch client_run_one
    simp only [hpe, if_pos]
    cases rest <;> rfl

/-- C5 amended witness: a concrete failing read in the fix-auth-placement
batch and a concrete failing write in the fix-nextjs15 batch (on a file whose
rewrite succeeds) each yield an error outcome carrying the message, and a
concrete missing path in the client batch yields a skip with the batch
continuing. -/
theorem c5_amended_error_handling_witness :
    (ap_run_batch [{ readRes := Except.error (strOf "bad"), writeFail := none }]).get
        ⟨0, by simp [ap_run_batch]⟩ = Outcome.error (strOf "bad") ∧
    (nj_run_batch [(⟨Except.ok (strOf "async function Page(\x7b\n  // Authentication check\n  const session = await auth()\n  const sppgId = session?.user?.sppgId\n\n  if (!sppgId) \x7b\n    redirect(\x27/login\x27)\n  \x7d\n\n  params\n\x7d: \x7b p: T \x7d) \x7b\n"),
        some (strOf "disk full")⟩ : FileAccess)]).get
        ⟨0, by simp [nj_run_batch]⟩ = Outcome.error (strOf "disk full") ∧
    client_run_batch
        [{ pathExists := false, readRes := Except.ok [], writeFail := none }] =
      Except.ok [Outcome.skip (strOf "Not found")] := by
  refine ⟨?_, ?_, ?_⟩
  · exact c5_amended_error_handling.2.2.1
      [{ readRes := Except.error (strOf "bad"), writeFail := none }] 0 (strOf "bad")
      (by simp) (by simp [ap_run_batch]) rfl
  · exact c5_amended_error_handling.2.2.2.2.2.1
      [(⟨Except.ok (strOf "async function Page(\x7b\n  // Authentication check\n  const session = await auth()\n  const sppgId = session?.user?.sppgId\n\n  if (!sppgId) \x7b\n    redirect(\x27/login\x27)\n  \x7d\n\n  params\n\x7d: \x7b p: T \x7d) \x7b\n"),
        some (strOf "disk full")⟩ : FileAccess)] 0
      (strOf "async function Page(\x7b\n  // Authentication check\n  const session = await auth()\n  const sppgId = session?.user?.sppgId\n\n  if (!sppgId) \x7b\n    redirect(\x27/login\x27)\n  \x7d\n\n  params\n\x7d: \x7b p: T \x7d) \x7b\n")
      ((process_file_nj (strOf "async function Page(\x7b\n  // Authentication check\n  const session = await auth()\n  const sppgId = session?.user?.sppgId\n\n  if (!sppgId) \x7b\n    redirect(\x27/login\x27)\n  \x7d\n\n  params\n\x7d: \x7b p: T \x7d) \x7b\n")).2)
      (strOf "disk full") (by simp) (by simp [nj_run_batch]) rfl (by rfl) rfl
  · have h := c5_amended_error_handling.2.2.2.2.2.2
      { pathExists := false, readRes := Except.ok [], writeFail := none } [] rfl
    simpa [client_run_batch] using h

/-! ## Inventory matcher: completeness and soundness -/

theorem invTry_call2 {x w y rest : Chars} (hx : x ≠ [])
    (hx2 : ∀ c ∈ x, (c != '\x27') = true) (hw : ∀ c ∈ w, isPySpace c = true)
    (hy : y ≠ []) (hy2 : ∀ c ∈ y, (c != '\x27') = true) :
    invTry (invCall2 x w y ++ rest) = some (invCall1 x, rest) := by
  have e0 : invCall2 x w y ++ rest =
      strOf "getFoodCategoryId(\x27" ++ (x ++ (strOf "\x27," ++ (w ++
        (strOf "\x27" ++ (y ++ (strOf "\x27)" ++ rest)))))) := by
    simp [invCall2, List.append_assoc]
  have e1 := expectLit_append (strOf "getFoodCategoryId(\x27")
    (x ++ (strOf "\x27," ++ (w ++ (strOf "\x27" ++ (y ++ (strOf "\x27)" ++ rest))))))
  have e2 : run1Lit (fun c => c != '\x27') (strOf "\x27,")
      (x ++ (strOf "\x27," ++ (w ++ (strOf "\x27" ++ (y ++ (strOf "\x27)" ++ rest)))))) =
      some (x, w ++ (strOf "\x27" ++ (y ++ (strOf "\x27)" ++ rest)))) :=
    run1Lit_append hx hx2 (show strOf "\x27," = '\x27' :: strOf "," from rfl) (by decide)
  have e3 : wsLit 0 (strOf "\x27")
      (w ++ (strOf "\x27" ++ (y ++ (strOf "\x27)" ++ rest)))) =
      some (w, y ++ (strOf "\x27)" ++ rest)) :=
    wsLit_append hw (Nat.zero_le _)
      (show strOf "\x27" = '\x27' :: strOf "" from rfl) (by decide)
  have e4 : run1Lit (fun c => c != '\x27') (strOf "\x27)")
      (y ++ (strOf "\x27)" ++ rest)) = some (y, rest) :=
    run1Lit_append hy hy2 (show strOf "\x27)" = '\x27' :: strOf ")" from rfl) (by decide)
  rw [e0]
  unfold invTry
  simp only [e1, e2, e3, e4]
  rfl

theorem invTry_sound {s r t : Chars} (h : invTry s = some (r, t)) :
    ∃ x w y : Chars, x ≠ [] ∧ (∀ c ∈ x, (c != '\x27') = true) ∧
      (∀ c ∈ w, isPySpace c = true) ∧ y ≠ [] ∧ (∀ c ∈ y, (c != '\x27') = true) ∧
      s = invCall2 x w y ++ t ∧ r = invCall1 x := by
  unfold invTry at h
  cases h1 : expectLit (strOf "getFoodCategoryId(\x27") s with
  | none => simp [h1] at h
  | some s1 =>
  simp only [h1] at h
  cases h2 : run1Lit (fun c => c != '\x27') (strOf "\x27,") s1 with
  | none => simp [h2] at h
  | some p2 =>
  obtain ⟨x, s2⟩ := p2
  simp only [h2] at h
  cases h3 : wsLit 0 (strOf "\x27") s2 with
  | none => simp [h3] at h
  | some p3 =>
  obtain ⟨w, s3⟩ := p3
  simp only [h3] at h
  cases h4 : run1Lit (fun c => c != '\x27') (strOf "\x27)") s3 with
  | none => simp [h4] at h
  | some p4 =>
  obtain ⟨y, s4⟩ := p4
  simp only [h4, Option.some.injEq, Prod.mk.injEq] at h
  obtain ⟨hr, rfl⟩ := h
  obtain ⟨hs2, hx1, hx2⟩ := run1Lit_sound h2
  obtain ⟨hs3, hw1, -⟩ := wsLit_sound h3
  obtain ⟨hs4, hy1, hy2⟩ := run1Lit_sound h4
  refine ⟨x, w, y, hx1, hx2, hw1, hy1, hy2, ?_, hr.symm⟩
  rw [expectLit_sound h1, hs2, hs3, hs4]
  simp [invCall2, List.append_assoc]

/-- C1 fails as stated: on the input `getFoodCategoryId(` the substitution
alters no call site (the output equals the input) yet the script reports one
change, because the reported count is the occurrence difference
`content.count("getFoodCategoryId(") - new_content.count(", '")`, not a count
of substitutions performed. -/
theorem c1_change_count_counterexample :
    invSub (strOf "getFoodCategoryId(") = strOf "getFoodCategoryId(" ∧
    invChanges (strOf "getFoodCategoryId(") = 1 := by
  constructor
  · decide
  · decide

/-- C1 amended: every call site matching the two-string-literal-argument
pattern `getFoodCategoryId('X',\s*'Y')` is rewritten to the one-argument call
keeping the first argument (a match at the scan position is replaced, with
scanning continuing after the consumed text, and a position starting no match
is copied verbatim); the change count reported by the script, however, is the
occurrence-count difference between `getFoodCategoryId(` in the input and
`, '` in the output, which need not equal the number of call sites altered. -/
theorem c1_argument_strip_amended :
    (∀ x w y rest : Chars, x ≠ [] → (∀ c ∈ x, (c != '\x27') = true) →
      (∀ c ∈ w, isPySpace c = true) → y ≠ [] → (∀ c ∈ y, (c != '\x27') = true) →
      invSub (invCall2 x w y ++ rest) = invCall1 x ++ invSub rest) ∧
    (∀ c : Char, ∀ s : Chars,
      (¬ ∃ x w y rest : Chars, x ≠ [] ∧ (∀ d ∈ x, (d != '\x27') = true) ∧
        (∀ d ∈ w, isPySpace d = true) ∧ y ≠ [] ∧ (∀ d ∈ y, (d != '\x27') = true) ∧
        (c :: s : Chars) = invCall2 x w y ++ rest) →
      invSub (c :: s) = c :: invSub s) ∧
    (∀ s : Chars, invChanges s =
      (countSub (strOf "getFoodCategoryId(") s : Int) -
        (countSub (strOf ", \x27") (invSub s) : Int)) := by
  refine ⟨?_, ?_, ?_⟩
  · intro x w y rest hx hx2 hw hy hy2
    exact subAll_match invTry_strict (invTry_call2 hx hx2 hw hy hy2)
  · intro c s hno
    have hnone : invTry (c :: s) = none := by
      cases htry : invTry (c :: s) with
      | none => rfl
      | some p =>
        obtain ⟨r, t⟩ := p
        obtain ⟨x, w, y, hx, hx2, hw, hy, hy2, hs, -⟩ := invTry_sound htry
        exact absurd ⟨x, w, y, t, hx, hx2, hw, hy, hy2, hs⟩ hno
    exact subAll_copy hnone
  · intro s
    rfl

/-- C1 amended witness: a concrete two-argument call followed by a tail is
rewritten to the concrete one-argument call. -/
theorem c1_argument_strip_amended_witness :
    invSub (invCall2 (strOf "A") (strOf " ") (strOf "B") ++ strOf "!") =
      invCall1 (strOf "A") ++ invSub (strOf "!") :=
  c1_argument_strip_amended.1 (strOf "A") (strOf " ") (strOf "B") (strOf "!")
    (by decide) (by decide) (by decide) (by decide) (by decide)

/-! ## Client-script matchers: completeness and soundness -/

theorem headNonSpace_sound {r : Chars} (h : headNonSpace r = true) :
    ∀ c t, r = c :: t → isPySpace c = false := by
  intro c t hr
  subst hr
  simpa [headNonSpace] using h

theorem quoteOne_pre {s t : Chars} (h : quoteOne s = some t) (r : Chars) :
    quoteOne (s ++ r) = some (t ++ r) := by
  unfold quoteOne at h ⊢
  cases s with
  | nil => simp at h
  | cons c s' =>
    simp only at h ⊢
    split at h
    · simp only [Option.some.injEq] at h
      subst h
      simp only [List.cons_append]
      rw [if_pos]
      assumption
    · exact absurd h (by simp)

theorem ws1Quote_pre {s t : Chars} (h : ws1Quote s = some t) (r : Chars) :
    ws1Quote (s ++ r) = some (t ++ r) := by
  unfold ws1Quote at h ⊢
  rcases hab : runSplit isPySpace s with ⟨a, b⟩
  rw [hab] at h
  simp only at h
  split at h
  · exact absurd h (by simp)
  · rename_i hne
    cases b with
    | nil => simp [quoteOne] at h
    | cons c b' =>
      rw [runSplit_pre hab r]
      simp only [hne, if_neg]
      exact quoteOne_pre h r

theorem asyncTry_head (name rest : Chars) (hn : name ≠ [])
    (hw : ∀ c ∈ name, isWordChar c = true) :
    asyncTry (strOf "async function " ++ (name ++ (strOf "(" ++ rest))) =
      some (strOf "function " ++ name ++ strOf "(", rest) := by
  unfold asyncTry
  have e1 := expectLit_append (strOf "async function ") (name ++ (strOf "(" ++ rest))
  have e2 : run1Lit isWordChar (strOf "(") (name ++ (strOf "(" ++ rest)) =
      some (name, rest) :=
    run1Lit_append hn hw (show strOf "(" = '(' :: strOf "" from rfl) (by decide)
  simp only [e1, e2]

theorem asyncTry_sound {s r t : Chars} (h : asyncTry s = some (r, t)) :
    ∃ name : Chars, name ≠ [] ∧ (∀ c ∈ name, isWordChar c = true) ∧
      s = strOf "async function " ++ name ++ strOf "(" ++ t ∧
      r = strOf "function " ++ name ++ strOf "(" := by
  unfold asyncTry at h
  cases h1 : expectLit (strOf "async function ") s with
  | none => simp [h1] at h
  | some s1 =>
  simp only [h1] at h
  cases h2 : run1Lit isWordChar (strOf "(") s1 with
  | none => simp [h2] at h
  | some p2 =>
  obtain ⟨name, s2⟩ := p2
  simp only [h2, Option.some.injEq, Prod.mk.injEq] at h
  obtain ⟨hr, rfl⟩ := h
  obtain ⟨hs1, hn1, hn2⟩ := run1Lit_sound h2
  refine ⟨name, hn1, hn2, ?_, hr.symm⟩
  rw [expectLit_sound h1, hs1]
  simp [List.append_assoc]

theorem impAuthTry_head {rest : Chars} (hr : headNonSpace rest = true) :
    impAuthTry (impAuthLine ++ rest) = some ([], rest) := by
  unfold impAuthTry
  have j1 : expectLit (strOf "import") impAuthLine =
      some (strOf " \x7b auth \x7d from \x27@/lib/auth\x27\n") := by rfl
  have j2 : ws1Lit (strOf "\x7b") (strOf " \x7b auth \x7d from \x27@/lib/auth\x27\n") =
      some (strOf " ", strOf " auth \x7d from \x27@/lib/auth\x27\n") := by rfl
  have j3 : wsLit 0 (strOf "auth") (strOf " auth \x7d from \x27@/lib/auth\x27\n") =
      some (strOf " ", strOf " \x7d from \x27@/lib/auth\x27\n") := by rfl
  have j4 : wsLit 0 (strOf "\x7d") (strOf " \x7d from \x27@/lib/auth\x27\n") =
      some (strOf " ", strOf " from \x27@/lib/auth\x27\n") := by rfl
  have j5 : ws1Lit (strOf "from") (strOf " from \x27@/lib/auth\x27\n") =
      some (strOf " ", strOf " \x27@/lib/auth\x27\n") := by rfl
  have j6 : ws1Quote (strOf " \x27@/lib/auth\x27\n") =
      some (strOf "@/lib/auth\x27\n") := by rfl
  have j7 : expectLit (strOf "@/lib/auth") (strOf "@/lib/auth\x27\n") =
      some (strOf "\x27\n") := by rfl
  have j8 : quoteOne (strOf "\x27\n") = some (strOf "\n") := by rfl
  have e1 := expectLit_pre j1 rest
  have e2 := ws1Lit_pre j2 (show strOf "\x7b" = '\x7b' :: strOf "" from rfl) rest
  have e3 := wsLit_pre j3 (show strOf "auth" = 'a' :: strOf "uth" from rfl) rest
  have e4 := wsLit_pre j4 (show strOf "\x7d" = '\x7d' :: strOf "" from rfl) rest
  have e5 := ws1Lit_pre j5 (show strOf "from" = 'f' :: strOf "rom" from rfl) rest
  have e6 := ws1Quote_pre j6 rest
  have e7 := expectLit_pre j7 rest
  have e8 := quoteOne_pre j8 rest
  have e9 : wsLastNl 1 (strOf "\n" ++ rest) = some rest := by
    have : strOf "\n" ++ rest = '\n' :: rest := rfl
    rw [this]
    exact wsLastNl_one (headNonSpace_sound hr)
  simp only [e1, e2, e3, e4, e5, e6, e7, e8, e9]

theorem impRedirTry_head {rest : Chars} (hr : headNonSpace rest = true) :
    impRedirTry (impRedirLine ++ rest) = some ([], rest) := by
  unfold impRedirTry
  have j1 : expectLit (strOf "import") impRedirLine =
      some (strOf " \x7b redirect \x7d from \x27next/navigation\x27\n") := by rfl
  have j2 : ws1Lit (strOf "\x7b") (strOf " \x7b redirect \x7d from \x27next/navigation\x27\n") =
      some (strOf " ", strOf " redirect \x7d from \x27next/navigation\x27\n") := by rfl
  have j3 : wsLit 0 (strOf "redirect") (strOf " redirect \x7d from \x27next/navigation\x27\n") =
      some (strOf " ", strOf " \x7d from \x27next/navigation\x27\n") := by rfl
  have j4 : wsLit 0 (strOf "\x7d") (strOf " \x7d from \x27next/navigation\x27\n") =
      some (strOf " ", strOf " from \x27next/navigation\x27\n") := by rfl
  have j5 : ws1Lit (strOf "from") (strOf " from \x27next/navigation\x27\n") =
      some (strOf " ", strOf " \x27next/navigation\x27\n") := by rfl
  have j6 : ws1Quote (strOf " \x27next/navigation\x27\n") =
      some (strOf "next/navigation\x27\n") := by rfl
  have j7 : expectLit (strOf "next/navigation") (strOf "next/navigation\x27\n") =
      some (strOf "\x27\n") := by rfl
  have j8 : quoteOne (strOf "\x27\n") = some (strOf "\n") := by rfl
  have e1 := expectLit_pre j1 rest
  have e2 := ws1Lit_pre j2 (show strOf "\x7b" = '\x7b' :: strOf "" from rfl) rest
  have e3 := wsLit_pre j3 (show strOf "redirect" = 'r' :: strOf "edirect" from rfl) rest
  have e4 := wsLit_pre j4 (show strOf "\x7d" = '\x7d' :: strOf "" from rfl) rest
  have e5 := ws1Lit_pre j5 (show strOf "from" = 'f' :: strOf "rom" from rfl) rest
  have e6 := ws1Quote_pre j6 rest
  have e7 := expectLit_pre j7 rest
  have e8 := quoteOne_pre j8 rest
  have e9 : wsLastNl 1 (strOf "\n" ++ rest) = some rest := by
    have : strOf "\n" ++ rest = '\n' :: rest := rfl
    rw [this]
    exact wsLastNl_one (headNonSpace_sound hr)
  simp only [e1, e2, e3, e4, e5, e6, e7, e8, e9]

/-- C10: the client-component script's async-removal substitution is global
over the file content: every occurrence of `async function <identifier>(`
starting at a scan position is rewritten to `function <identifier>(` — with
scanning continuing over the remainder, so helper and nested declarations are
rewritten too — while positions starting no such occurrence are copied
verbatim; likewise each of the two targeted import lines is stripped wherever
it occurs. -/
theorem c10_global_async_and_import_strip :
    (∀ name rest : Chars, name ≠ [] → (∀ c ∈ name, isWordChar c = true) →
      asyncSub (strOf "async function " ++ name ++ strOf "(" ++ rest) =
        strOf "function " ++ name ++ strOf "(" ++ asyncSub rest) ∧
    (∀ c : Char, ∀ s : Chars,
      (¬ ∃ name rest : Chars, name ≠ [] ∧ (∀ d ∈ name, isWordChar d = true) ∧
        (c :: s : Chars) = strOf "async function " ++ name ++ strOf "(" ++ rest) →
      asyncSub (c :: s) = c :: asyncSub s) ∧
    (∀ rest : Chars, headNonSpace rest = true →
      impAuthSub (impAuthLine ++ rest) = impAuthSub rest) ∧
    (∀ rest : Chars, headNonSpace rest = true →
      impRedirSub (impRedirLine ++ rest) = impRedirSub rest) := by
  refine ⟨?_, ?_, ?_, ?_⟩
  · intro name rest hn hw
    have e0 : strOf "async function " ++ name ++ strOf "(" ++ rest =
        strOf "async function " ++ (name ++ (strOf "(" ++ rest)) := by
      simp [List.append_assoc]
    rw [e0]
    have := subAll_match asyncTry_strict (asyncTry_head name rest hn hw)
    rw [show strOf "function " ++ name ++ strOf "(" ++ asyncSub rest =
      (strOf "function " ++ name ++ strOf "(") ++ asyncSub rest by
        simp [List.append_assoc]]
    exact this
  · intro c s hno
    have hnone : asyncTry (c :: s) = none := by
      cases htry : asyncTry (c :: s) with
      | none => rfl
      | some p =>
        obtain ⟨r, t⟩ := p
        obtain ⟨name, hn, hw, hs, -⟩ := asyncTry_sound htry
        exact absurd ⟨name, t, hn, hw, hs⟩ hno
    exact subAll_copy hnone
  · intro rest hr
    have := subAll_match impAuthTry_strict (impAuthTry_head hr)
    simpa using this
  · intro rest hr
    have := subAll_match impRedirTry_strict (impRedirTry_head hr)
    simpa using this

/-- C10 witness: a concrete helper declaration deep in a file is rewritten,
and a concrete occurrence of the auth import line is stripped. -/
theorem c10_global_async_and_import_strip_witness :
    asyncSub (strOf "async function " ++ strOf "helper" ++ strOf "(" ++ strOf ") \x7b\x7d") =
      strOf "function " ++ strOf "helper" ++ strOf "(" ++ asyncSub (strOf ") \x7b\x7d") ∧
    impAuthSub (impAuthLine ++ strOf "zz") = impAuthSub (strOf "zz") :=
  ⟨c10_global_async_and_import_strip.1 (strOf "helper") (strOf ") \x7b\x7d")
      (by decide) (by decide),
    c10_global_async_and_import_strip.2.2.1 (strOf "zz") (by decide)⟩

/-- C2 fails as stated ("any one of the fix scripts"): update_menu_seed.py is
not idempotent.  Its anchor line is the last line of the helper block it
inserts, so a second run inserts the helper block again: starting from a file
consisting of the anchor line, the on-disk content after the second run
differs from the content after the first run (and the script writes
unconditionally, with no skip outcome at all). -/
theorem c2_menu_not_idempotent_counterexample :
    (run_update_menu_seed (run_update_menu_seed
        { file := menuAnchor, backup := none })).file ≠
      (run_update_menu_seed { file := menuAnchor, backup := none }).file := by
  show menuTransform (menuTransform menuAnchor) ≠ menuTransform menuAnchor
  decide

/-- C2 amended: the precondition-gated relocation scripts
(fix-nextjs15-auth-pattern.py and fix-auth-placement.py) are idempotent in the
claimed sense: if a first run rewrote a file and the wrong-placement
precondition regex does not match the rewritten content (the claim's "given
the precondition regex correctly excludes already-corrected text"), the second
run reports a skip outcome and leaves the content byte-identical.  The
unconditional seed-patching scripts are excluded: update_menu_seed.py
re-inserts its helper block on every run and both seed scripts rewrite file
and backup unconditionally. -/
theorem c2_second_run_skip_amended :
    (∀ c f : Chars, process_file_nj c = (Outcome.success, f) →
      reSearch njWrongTry f = false →
      ∃ r, process_file_nj f = (Outcome.skip r, f)) ∧
    (∀ c f : Chars, process_file_ap c = (Outcome.success, f) →
      reSearch apWrongTry f = false →
      ∃ r, process_file_ap f = (Outcome.skip r, f)) := by
  constructor
  · intro c f _ hw
    unfold process_file_nj
    by_cases hm : containsSub authMarker f = true
    · exact ⟨strOf "Auth already correct", by simp [hm, hw]⟩
    · exact ⟨strOf "No auth check", by simp [hm]⟩
  · intro c f _ hw
    unfold process_file_ap
    by_cases hm : containsSub authMarker f = true
    · exact ⟨strOf "Auth check already correct", by simp [hm, hw]⟩
    · exact ⟨strOf "No auth check", by simp [hm]⟩

/-- C2 amended witness: a concrete malformed page is successfully rewritten by
the first run of each relocation script, the precondition no longer matches
the output, and the second run is a skip that leaves the content unchanged. -/
theorem c2_second_run_skip_amended_witness :
    (∃ r, process_file_nj
        (process_file_nj (strOf "async function Page(\x7b\n  // Authentication check\n  const session = await auth()\n  const sppgId = session?.user?.sppgId\n\n  if (!sppgId) \x7b\n    redirect(\x27/login\x27)\n  \x7d\n\n  params\n\x7d: \x7b p: T \x7d) \x7b\n")).2 =
      (Outcome.skip r,
        (process_file_nj (strOf "async function Page(\x7b\n  // Authentication check\n  const session = await auth()\n  const sppgId = session?.user?.sppgId\n\n  if (!sppgId) \x7b\n    redirect(\x27/login\x27)\n  \x7d\n\n  params\n\x7d: \x7b p: T \x7d) \x7b\n")).2)) ∧
    (∃ r, process_file_ap
        (process_file_ap (strOf "async function Page(\x7b\n  // Authentication check\n  const session = await auth()\n  const sppgId = session?.user?.sppgId\n\n  if (!sppgId) \x7b\n    redirect(\x27/login\x27)\n  \x7d\n\n  params\n\x7d: \x7b p: T \x7d) \x7b\n")).2 =
      (Outcome.skip r,
        (process_file_ap (strOf "async function Page(\x7b\n  // Authentication check\n  const session = await auth()\n  const sppgId = session?.user?.sppgId\n\n  if (!sppgId) \x7b\n    redirect(\x27/login\x27)\n  \x7d\n\n  params\n\x7d: \x7b p: T \x7d) \x7b\n")).2)) :=
  ⟨c2_second_run_skip_amended.1 (strOf "async function Page(\x7b\n  // Authentication check\n  const session = await auth()\n  const sppgId = session?.user?.sppgId\n\n  if (!sppgId) \x7b\n    redirect(\x27/login\x27)\n  \x7d\n\n  params\n\x7d: \x7b p: T \x7d) \x7b\n")
      ((process_file_nj (strOf "async function Page(\x7b\n  // Authentication check\n  const session = await auth()\n  const sppgId = session?.user?.sppgId\n\n  if (!sppgId) \x7b\n    redirect(\x27/login\x27)\n  \x7d\n\n  params\n\x7d: \x7b p: T \x7d) \x7b\n")).2) (by rfl) (by decide),
    c2_second_run_skip_amended.2 (strOf "async function Page(\x7b\n  // Authentication check\n  const session = await auth()\n  const sppgId = session?.user?.sppgId\n\n  if (!sppgId) \x7b\n    redirect(\x27/login\x27)\n  \x7d\n\n  params\n\x7d: \x7b p: T \x7d) \x7b\n")
      ((process_file_ap (strOf "async function Page(\x7b\n  // Authentication check\n  const session = await auth()\n  const sppgId = session?.user?.sppgId\n\n  if (!sppgId) \x7b\n    redirect(\x27/login\x27)\n  \x7d\n\n  params\n\x7d: \x7b p: T \x7d) \x7b\n")).2) (by rfl) (by decide)⟩

/-! ## fix_auth_placement on the canonical malformed shape -/

theorem pyStrip_head_tail {s : Chars} {c d : Char} {t u : Chars}
    (h1 : s = c :: t) (h2 : s.reverse = d :: u)
    (hc : isPySpace c = false) (hd : isPySpace d = false) : pyStrip s = s := by
  unfold pyStrip
  rw [h1, List.dropWhile_cons, if_neg (by simp [hc]), ← h1, h2,
    List.dropWhile_cons, if_neg (by simp [hd]), ← h2, List.reverse_reverse]

theorem pyStrip_params (ptail : Chars) :
    pyStrip (strOf "params" ++ ptail ++ strOf "\x7d") = strOf "params" ++ ptail ++ strOf "\x7d" := by
  refine pyStrip_head_tail (c := 'p') (d := '\x7d')
    (t := strOf "arams" ++ ptail ++ strOf "\x7d") (u := ptail.reverse ++ (strOf "params").reverse) ?_ ?_ (by decide) (by decide)
  · rw [show strOf "params" = 'p' :: strOf "arams" from rfl]
    simp
  · rw [show strOf "\x7d" = ['\x7d'] from rfl]
    simp

theorem headNot_of_head {p : Char → Bool} {s : Chars} {c : Char} {t : Chars}
    (hs : s = c :: t) (hc : p c = false) : ∀ d u, s = d :: u → p d = false := by
  intro d u h
  rw [hs] at h
  cases h
  exact hc

theorem apTry_malformed (fname rarg ptail ty post : Chars)
    (hf1 : fname ≠ []) (hf2 : ∀ c ∈ fname, isWordChar c = true)
    (hr1 : rarg ≠ []) (hr2 : ∀ c ∈ rarg, (c != ')') = true)
    (hp2 : ∀ c ∈ ptail, (c != '\x7d') = true)
    (ht1 : ty ≠ []) (ht2 : ∀ c ∈ ty, (c != '\x7d') = true) :
    apTry (apMalformed fname rarg ptail ty ++ post) =
      some (apFixedForm fname ptail ty, post) := by
  have e0 : apMalformed fname rarg ptail ty ++ post =
      strOf "async function " ++ (fname ++ (strOf "(\x7b\n  // Authentication check\n  const session = await auth()\n  const sppgId = session?.user?.sppgId\n\n  if (!sppgId) \x7b\n    redirect(" ++ (rarg ++ (strOf ")" ++ (strOf "\n  \x7d\n\n  params" ++ (ptail ++ (strOf "\x7d" ++ (strOf ": \x7b" ++ (ty ++ (strOf "\x7d" ++ (strOf ") \x7b" ++ post))))))))))) := by
    unfold apMalformed
    rw [show strOf ")\n  \x7d\n\n  params" = strOf ")" ++ strOf "\n  \x7d\n\n  params" from rfl,
      show strOf "\x7d: \x7b" = strOf "\x7d" ++ strOf ": \x7b" from rfl,
      show strOf "\x7d) \x7b" = strOf "\x7d" ++ strOf ") \x7b" from rfl]
    simp [List.append_assoc]
  have hJ1 := expectLit_append (strOf "async function ") (fname ++ (strOf "(\x7b\n  // Authentication check\n  const session = await auth()\n  const sppgId = session?.user?.sppgId\n\n  if (!sppgId) \x7b\n    redirect(" ++ (rarg ++ (strOf ")" ++ (strOf "\n  \x7d\n\n  params" ++ (ptail ++ (strOf "\x7d" ++ (strOf ": \x7b" ++ (ty ++ (strOf "\x7d" ++ (strOf ") \x7b" ++ post)))))))))))
  have hJ2 : run1 isWordChar (fname ++ (strOf "(\x7b\n  // Authentication check\n  const session = await auth()\n  const sppgId = session?.user?.sppgId\n\n  if (!sppgId) \x7b\n    redirect(" ++ (rarg ++ (strOf ")" ++ (strOf "\n  \x7d\n\n  params" ++ (ptail ++ (strOf "\x7d" ++ (strOf ": \x7b" ++ (ty ++ (strOf "\x7d" ++ (strOf ") \x7b" ++ post))))))))))) = some (fname, strOf "(\x7b\n  // Authentication check\n  const session = await auth()\n  const sppgId = session?.user?.sppgId\n\n  if (!sppgId) \x7b\n    redirect(" ++ (rarg ++ (strOf ")" ++ (strOf "\n  \x7d\n\n  params" ++ (ptail ++ (strOf "\x7d" ++ (strOf ": \x7b" ++ (ty ++ (strOf "\x7d" ++ (strOf ") \x7b" ++ post)))))))))) :=
    run1_append hf1 hf2 (headNot_of_head rfl (by decide))
  have c3 : wsLit 0 (strOf "(") (strOf "(\x7b\n  // Authentication check\n  const session = await auth()\n  const sppgId = session?.user?.sppgId\n\n  if (!sppgId) \x7b\n    redirect(") = some ([], strOf "\x7b\n  // Authentication check\n  const session = await auth()\n  const sppgId = session?.user?.sppgId\n\n  if (!sppgId) \x7b\n    redirect(") := by rfl
  have c4 : wsLit 0 (strOf "\x7b") (strOf "\x7b\n  // Authentication check\n  const session = await auth()\n  const sppgId = session?.user?.sppgId\n\n  if (!sppgId) \x7b\n    redirect(") = some ([], strOf "\n  // Authentication check\n  const session = await auth()\n  const sppgId = session?.user?.sppgId\n\n  if (!sppgId) \x7b\n    redirect(") := by rfl
  have c5 : wsLit 1 (strOf "// Authentication check") (strOf "\n  // Authentication check\n  const session = await auth()\n  const sppgId = session?.user?.sppgId\n\n  if (!sppgId) \x7b\n    redirect(") = some (strOf "\n  ", strOf "\n  const session = await auth()\n  const sppgId = session?.user?.sppgId\n\n  if (!sppgId) \x7b\n    redirect(") := by rfl
  have c6 : wsLit 1 (strOf "const session = await auth()") (strOf "\n  const session = await auth()\n  const sppgId = session?.user?.sppgId\n\n  if (!sppgId) \x7b\n    redirect(") = some (strOf "\n  ", strOf "\n  const sppgId = session?.user?.sppgId\n\n  if (!sppgId) \x7b\n    redirect(") := by rfl
  have c7 : wsLit 1 (strOf "const sppgId = session?.user?.sppgId") (strOf "\n  const sppgId = session?.user?.sppgId\n\n  if (!sppgId) \x7b\n    redirect(") = some (strOf "\n  ", strOf "\n\n  if (!sppgId) \x7b\n    redirect(") := by rfl
  have c8 : wsLit 2 (strOf "if (!sppgId) \x7b") (strOf "\n\n  if (!sppgId) \x7b\n    redirect(") = some (strOf "\n\n  ", strOf "\n    redirect(") := by rfl
  have c9 : wsLit 1 (strOf "redirect(") (strOf "\n    redirect(") = some (strOf "\n    ", strOf "") := by rfl
  have e3 := wsLit_pre c3 (show strOf "(" = '(' :: strOf "" from rfl) (rarg ++ (strOf ")" ++ (strOf "\n  \x7d\n\n  params" ++ (ptail ++ (strOf "\x7d" ++ (strOf ": \x7b" ++ (ty ++ (strOf "\x7d" ++ (strOf ") \x7b" ++ post)))))))))
  have e4 := wsLit_pre c4 (show strOf "\x7b" = '\x7b' :: strOf "" from rfl) (rarg ++ (strOf ")" ++ (strOf "\n  \x7d\n\n  params" ++ (ptail ++ (strOf "\x7d" ++ (strOf ": \x7b" ++ (ty ++ (strOf "\x7d" ++ (strOf ") \x7b" ++ post)))))))))
  have e5 := wsLit_pre c5 (show strOf "// Authentication check" = '/' :: strOf "/ Authentication check" from rfl) (rarg ++ (strOf ")" ++ (strOf "\n  \x7d\n\n  params" ++ (ptail ++ (strOf "\x7d" ++ (strOf ": \x7b" ++ (ty ++ (strOf "\x7d" ++ (strOf ") \x7b" ++ post)))))))))
  have e6 := wsLit_pre c6 (show strOf "const session = await auth()" = 'c' :: strOf "onst session = await auth()" from rfl) (rarg ++ (strOf ")" ++ (strOf "\n  \x7d\n\n  params" ++ (ptail ++ (strOf "\x7d" ++ (strOf ": \x7b" ++ (ty ++ (strOf "\x7d" ++ (strOf ") \x7b" ++ post)))))))))
  have e7 := wsLit_pre c7 (show strOf "const sppgId = session?.user?.sppgId" = 'c' :: strOf "onst sppgId = session?.user?.sppgId" from rfl) (rarg ++ (strOf ")" ++ (strOf "\n  \x7d\n\n  params" ++ (ptail ++ (strOf "\x7d" ++ (strOf ": \x7b" ++ (ty ++ (strOf "\x7d" ++ (strOf ") \x7b" ++ post)))))))))
  have e8 := wsLit_pre c8 (show strOf "if (!sppgId) \x7b" = 'i' :: strOf "f (!sppgId) \x7b" from rfl) (rarg ++ (strOf ")" ++ (strOf "\n  \x7d\n\n  params" ++ (ptail ++ (strOf "\x7d" ++ (strOf ": \x7b" ++ (ty ++ (strOf "\x7d" ++ (strOf ") \x7b" ++ post)))))))))
  have e9 := wsLit_pre c9 (show strOf "redirect(" = 'r' :: strOf "edirect(" from rfl) (rarg ++ (strOf ")" ++ (strOf "\n  \x7d\n\n  params" ++ (ptail ++ (strOf "\x7d" ++ (strOf ": \x7b" ++ (ty ++ (strOf "\x7d" ++ (strOf ") \x7b" ++ post)))))))))
  have e10 : run1Lit (fun c => c != ')') (strOf ")") (rarg ++ (strOf ")" ++ (strOf "\n  \x7d\n\n  params" ++ (ptail ++ (strOf "\x7d" ++ (strOf ": \x7b" ++ (ty ++ (strOf "\x7d" ++ (strOf ") \x7b" ++ post))))))))) = some (rarg, strOf "\n  \x7d\n\n  params" ++ (ptail ++ (strOf "\x7d" ++ (strOf ": \x7b" ++ (ty ++ (strOf "\x7d" ++ (strOf ") \x7b" ++ post))))))) :=
    run1Lit_append hr1 hr2 (show strOf ")" = ')' :: strOf "" from rfl) (by decide)
  have c11 : wsLit 1 (strOf "\x7d") (strOf "\n  \x7d\n\n  params") = some (strOf "\n  ", strOf "\n\n  params") := by rfl
  have e11 := wsLit_pre c11 (show strOf "\x7d" = '\x7d' :: strOf "" from rfl) (ptail ++ (strOf "\x7d" ++ (strOf ": \x7b" ++ (ty ++ (strOf "\x7d" ++ (strOf ") \x7b" ++ post))))))
  have c12 : wsLit 2 (strOf "params") (strOf "\n\n  params") = some (strOf "\n\n  ", strOf "") := by rfl
  have e12 := wsLit_pre c12 (show strOf "params" = 'p' :: strOf "arams" from rfl) (ptail ++ (strOf "\x7d" ++ (strOf ": \x7b" ++ (ty ++ (strOf "\x7d" ++ (strOf ") \x7b" ++ post))))))
  have e13 : run0Lit (fun c => c != '\x7d') (strOf "\x7d") (ptail ++ (strOf "\x7d" ++ (strOf ": \x7b" ++ (ty ++ (strOf "\x7d" ++ (strOf ") \x7b" ++ post)))))) = some (ptail, strOf ": \x7b" ++ (ty ++ (strOf "\x7d" ++ (strOf ") \x7b" ++ post)))) :=
    run0Lit_append hp2 (show strOf "\x7d" = '\x7d' :: strOf "" from rfl) (by decide)
  have c14 : wsLit 0 (strOf ":") (strOf ": \x7b") = some ([], strOf " \x7b") := by rfl
  have e14 := wsLit_pre c14 (show strOf ":" = ':' :: strOf "" from rfl) (ty ++ (strOf "\x7d" ++ (strOf ") \x7b" ++ post)))
  have c15 : wsLit 0 (strOf "\x7b") (strOf " \x7b") = some (strOf " ", strOf "") := by rfl
  have e15 := wsLit_pre c15 (show strOf "\x7b" = '\x7b' :: strOf "" from rfl) (ty ++ (strOf "\x7d" ++ (strOf ") \x7b" ++ post)))
  have e16 : run1Lit (fun c => c != '\x7d') (strOf "\x7d") (ty ++ (strOf "\x7d" ++ (strOf ") \x7b" ++ post))) = some (ty, strOf ") \x7b" ++ post) :=
    run1Lit_append ht1 ht2 (show strOf "\x7d" = '\x7d' :: strOf "" from rfl) (by decide)
  have c17 : wsLit 0 (strOf ")") (strOf ") \x7b") = some ([], strOf " \x7b") := by rfl
  have e17 := wsLit_pre c17 (show strOf ")" = ')' :: strOf "" from rfl) post
  have e18 := wsLit_pre c15 (show strOf "\x7b" = '\x7b' :: strOf "" from rfl) post
  rw [e0]
  unfold apTry
  simp only [hJ1, hJ2, e3, e4, e5, e6, e7, e8, e9, e10, e11, e12, e13, e14, e15,
    e16, e17, e18, show (strOf "" : Chars) = [] from rfl, List.nil_append]
  rw [pyStrip_params]
  unfold apFixedForm
  rw [show strOf "(\x7b\n  params" = strOf "(\x7b\n  " ++ strOf "params" from rfl,
    show strOf "\x7d\n\x7d: \x7b" = strOf "\x7d" ++ (strOf "\n\x7d: " ++ strOf "\x7b") from rfl,
    show strOf "\x7d) \x7b\n  // Authentication check\n  const session = await auth()\n  const sppgId = session?.user?.sppgId\n\n  if (!sppgId) \x7b\n    redirect(\x27/access-denied?reason=no-sppg\x27)\n  \x7d\n" = strOf "\x7d" ++ strOf ") \x7b\n  // Authentication check\n  const session = await auth()\n  const sppgId = session?.user?.sppgId\n\n  if (!sppgId) \x7b\n    redirect(\x27/access-denied?reason=no-sppg\x27)\n  \x7d\n" from rfl]
  simp [List.append_assoc]

/-- C3 fails as stated: the relocation transform does not preserve the
authentication-check block verbatim — the original `redirect(...)` argument is
discarded and replaced by the hard-coded `'/access-denied?reason=no-sppg'`.
On a concrete malformed page whose block contains `redirect('/login')`, the
input contains that call and the output does not. -/
theorem c3_redirect_not_preserved_counterexample :
    containsSub (strOf "redirect(\x27/login\x27)")
      (apMalformed (strOf "Page") (strOf "\x27/login\x27") [] (strOf "P")) = true ∧
    containsSub (strOf "redirect(\x27/login\x27)")
      (apSub (apMalformed (strOf "Page") (strOf "\x27/login\x27") [] (strOf "P"))) =
      false := by
  constructor
  · decide
  · decide

/-- C3 amended: for every input embedding the canonical malformed declaration
(auth-check block inside the parameter list, with function name `fname`,
redirect argument `rarg`, destructured-parameter tail `ptail` and type
annotation body `ty`), `fix_auth_placement` rewrites it so that the parameter
list holds the destructured parameter and the type annotation (with the
captured closing brace retained, duplicating that brace) and the
authentication-check block becomes the first statements of the function body —
with the redirect argument replaced by the hard-coded
`'/access-denied?reason=no-sppg'` rather than preserved. -/
theorem c3_relocation_amended :
    ∀ fname rarg ptail ty pre post : Chars,
    fname ≠ [] → (∀ c ∈ fname, isWordChar c = true) →
    rarg ≠ [] → (∀ c ∈ rarg, (c != ')') = true) →
    (∀ c ∈ ptail, (c != '\x7d') = true) →
    ty ≠ [] → (∀ c ∈ ty, (c != '\x7d') = true) →
    (∀ i, i < pre.length →
      apTry (List.drop i (pre ++ (apMalformed fname rarg ptail ty ++ post))) = none) →
    apSub (pre ++ (apMalformed fname rarg ptail ty ++ post)) =
      pre ++ (apFixedForm fname ptail ty ++ apSub post) := by
  intro fname rarg ptail ty pre post hf1 hf2 hr1 hr2 hp2 ht1 ht2
  unfold apSub
  induction pre with
  | nil =>
    intro _
    simp only [List.nil_append]
    exact subAll_match apTry_strict
      (apTry_malformed fname rarg ptail ty post hf1 hf2 hr1 hr2 hp2 ht1 ht2)
  | cons c pre ih =>
    intro hpre
    have h0 : apTry (c :: (pre ++ (apMalformed fname rarg ptail ty ++ post))) = none := by
      have := hpre 0 (by simp)
      simpa using this
    have e1 : (c :: pre) ++ (apMalformed fname rarg ptail ty ++ post) =
        c :: (pre ++ (apMalformed fname rarg ptail ty ++ post)) := rfl
    rw [e1, subAll_copy h0,
      ih (fun i hi => by
        have := hpre (i + 1) (by simp only [List.length_cons]; omega)
        simpa using this)]
    rfl

/-- C3 amended witness: a concrete malformed page with `redirect('/login')` is
rewritten to the concrete corrected form with the hard-coded redirect
argument. -/
theorem c3_relocation_amended_witness :
    apSub ([] ++ (apMalformed (strOf "Page") (strOf "\x27/login\x27") [] (strOf "P") ++
        strOf "\n")) =
      [] ++ (apFixedForm (strOf "Page") [] (strOf "P") ++ apSub (strOf "\n")) :=
  c3_relocation_amended (strOf "Page") (strOf "\x27/login\x27") [] (strOf "P") [] (strOf "\n")
    (by decide) (by decide) (by decide) (by decide) (by decide) (by decide) (by decide)
    (by intro i hi; exact absurd hi (by simp))
